import Mathlib

/-!
Verification development for the SUMO junction-shape computation
(`src/netbuild/NBNodeShapeComputer.cpp`).

The shape computer itself is translated directly from the source file.
Its collaborators (the polyline/line geometry kernel, `NBNode`, `NBEdge`,
option access and numeric constants from `utils/`) are not part of the
supplied sources; they are modelled from the specification, as marked on
each definition.  Real-valued geometry is embedded over the rationals.
Square roots are computed exactly when the radicand is a perfect rational
square (all concrete inputs below are chosen so every extracted root is
exact); angles are measured in degrees via a piecewise-linear polar-angle
function that is exact on the eight compass directions.
-/

set_option allowUnsafeReducibility true

attribute [semireducible] Rat.add Rat.mul Rat.inv Rat.sub Rat.ofScientific

namespace NB

/-- Modelled from the spec: the default lane width constant (`SUMO_const_laneWidth`,
3.2 length units) used as merge threshold and to derive edge widths. -/
def laneWidthC : ℚ := 16/5

/-- Modelled from the spec: the positional epsilon (`POSITION_EPS`) used for
"almost same position" tests and small numeric comparisons. -/
def positionEps : ℚ := 1/10

/-- Modelled from the spec: `SUMO_const_halfLaneAndOffset`. -/
def halfLaneAndOffsetC : ℚ := 8/5

/-- Modelled from the spec: `SUMO_const_laneWidthAndOffset`. -/
def laneWidthAndOffsetC : ℚ := 16/5

/-- Modelled from the spec: the default junction corner radius
(`NBNode::DEFAULT_RADIUS`) used when a node carries no configured radius. -/
def defaultRadiusC : ℚ := 3/2

/-- Modelled from the spec: the tolerance `0.1` radians of the near-parallel
two-direction case, expressed in the degree units this embedding uses for
angles (`0.1 rad = 5.7296°`, rounded to a rational). -/
def radTenthDeg : ℚ := 57296/10000

/-- Fuelled integer square-root bisection, maintaining the bracketing
invariant `lo * lo ≤ n < hi * hi`. -/
def sqrtIter (n : Nat) : Nat → Nat → Nat → Nat
  | 0, lo, _ => lo
  | f + 1, lo, hi =>
    let mid := (lo + hi) / 2
    if mid = lo then lo
    else if mid * mid ≤ n then sqrtIter n f mid hi else sqrtIter n f lo mid

/-- The integer square root (floor), computed by bisection. -/
def isqrt (n : Nat) : Nat := sqrtIter n (n + 1) 0 (n + 1)

/-- Exact rational square root: returns `r ≥ 0` with `r * r = q` when such a
rational exists, `0` otherwise.  Modelled from the spec's real-valued
geometry kernel; every concrete input in this file only extracts roots of
perfect rational squares, where this is the exact square root. -/
def sqrtQ (q : ℚ) : ℚ :=
  if q ≤ 0 then 0
  else
    let n := q.num.toNat
    let d := q.den
    let sn := isqrt n
    let sd := isqrt d
    if sn * sn = n ∧ sd * sd = d then (sn : ℚ) / (sd : ℚ) else 0

/-- Modelled from the spec: a 3-D point (x, y, z). -/
structure Position where
  x : ℚ
  y : ℚ
  z : ℚ
deriving DecidableEq

/-- The origin, used as total-function fallback for out-of-range accesses. -/
def pZero : Position := ⟨0, 0, 0⟩

/-- Componentwise sum (`Position::add`). Modelled from the spec. -/
def pAdd (p q : Position) : Position := ⟨p.x + q.x, p.y + q.y, p.z + q.z⟩

/-- Componentwise difference. Modelled from the spec. -/
def pSub (p q : Position) : Position := ⟨p.x - q.x, p.y - q.y, p.z - q.z⟩

/-- Scalar multiple (`Position::mul`). Modelled from the spec. -/
def pMul (a : ℚ) (p : Position) : Position := ⟨a * p.x, a * p.y, a * p.z⟩

/-- Squared 2-D distance. Modelled from the spec. -/
def distSq2D (p q : Position) : ℚ :=
  (p.x - q.x) ^ 2 + (p.y - q.y) ^ 2

/-- Squared 3-D distance. Modelled from the spec. -/
def distSq3D (p q : Position) : ℚ :=
  (p.x - q.x) ^ 2 + (p.y - q.y) ^ 2 + (p.z - q.z) ^ 2

/-- 2-D distance (`Position::distanceTo2D`). Modelled from the spec. -/
def dist2D (p q : Position) : ℚ := sqrtQ (distSq2D p q)

/-- 3-D distance (`Position::distanceTo`). Modelled from the spec. -/
def dist3D (p q : Position) : ℚ := sqrtQ (distSq3D p q)

/-- Modelled from the spec: `Position::almostSame`, true when the two points
are within `POSITION_EPS` of each other (compared on squares, which is exact). -/
def almostSame (p q : Position) : Bool :=
  decide (distSq3D p q ≤ positionEps ^ 2)

/-- Modelled from the spec: piecewise-linear polar angle in degrees in the
range `(-180, 180]`; exact on the eight compass directions and linear in
between.  Stands in for `atan2`-based degree angles of the geometry kernel. -/
def atan2Deg (dx dy : ℚ) : ℚ :=
  if dx = 0 ∧ dy = 0 then 0
  else
    let ax := |dx|
    let ay := |dy|
    let base := if ay ≤ ax then 45 * ay / ax else 90 - 45 * ax / ay
    if 0 ≤ dx then (if 0 ≤ dy then base else -base)
    else (if 0 ≤ dy then 180 - base else -(180 - base))

/-- Modelled from the spec: a directed two-point segment. -/
structure Line where
  p1 : Position
  p2 : Position
deriving DecidableEq

/-- 2-D length of a line. Modelled from the spec. -/
def lineLength2D (l : Line) : ℚ := dist2D l.p1 l.p2

/-- 2-D unit direction of a line (zero vector when degenerate or when the
length is not an exact rational). Modelled from the spec. -/
def lineUnit2D (l : Line) : ℚ × ℚ :=
  let len := lineLength2D l
  ((l.p2.x - l.p1.x) / len, (l.p2.y - l.p1.y) / len)

/-- Modelled from the spec: `Line::extrapolateBy2D`, extending both endpoints
outward by `d` along the line's direction. -/
def lineExtrapolate2D (l : Line) (d : ℚ) : Line :=
  let u := lineUnit2D l
  ⟨⟨l.p1.x - d * u.1, l.p1.y - d * u.2, l.p1.z⟩,
   ⟨l.p2.x + d * u.1, l.p2.y + d * u.2, l.p2.z⟩⟩

/-- Modelled from the spec: the point at 2-D distance `d` from `p1` along the
line (`Line::getPositionAtDistance2D`). -/
def linePosAtDist2D (l : Line) (d : ℚ) : Position :=
  let u := lineUnit2D l
  ⟨l.p1.x + d * u.1, l.p1.y + d * u.2, l.p1.z⟩

/-- Modelled from the spec: `Line::rotateAtP1` for the quarter turn used by
the shape computer (`M_PI / 2`), performed exactly. -/
def lineRotate90AtP1 (l : Line) : Line :=
  ⟨l.p1,
   ⟨l.p1.x - (l.p2.y - l.p1.y), l.p1.y + (l.p2.x - l.p1.x), l.p2.z⟩⟩

/-- Modelled from the spec: `Line::add`, translating both endpoints. -/
def lineAdd (l : Line) (p : Position) : Line :=
  ⟨pAdd l.p1 p, pAdd l.p2 p⟩

/-- Modelled from the spec: `Line::move2side`, shifting the segment
perpendicularly; positive amounts move to the right of the direction of
travel. -/
def lineMove2side (l : Line) (amount : ℚ) : Line :=
  let len := lineLength2D l
  let nx := amount * (l.p2.y - l.p1.y) / len
  let ny := amount * (l.p1.x - l.p2.x) / len
  ⟨⟨l.p1.x + nx, l.p1.y + ny, l.p1.z⟩, ⟨l.p2.x + nx, l.p2.y + ny, l.p2.z⟩⟩

/-- Modelled from the spec: degree polar angle of a line (`atan2DegreeAngle`). -/
def lineAngleDeg (l : Line) : ℚ := atan2Deg (l.p2.x - l.p1.x) (l.p2.y - l.p1.y)

/-- Modelled from the spec: polar angle normalized into `[0, 360)` degrees
(`atan2PositiveAngle`, with the full turn playing the role of `2π`). -/
def lineAnglePos (l : Line) : ℚ :=
  let a := lineAngleDeg l
  if a < 0 then a + 360 else a

/-- Intersection parameters of segments `a b` and `c d`: the denominator and
the two (scaled) parameter numerators.  Modelled from the spec's segment
intersection operation. -/
def segParams (a b c d : Position) : ℚ × ℚ × ℚ :=
  let rx := b.x - a.x
  let ry := b.y - a.y
  let sx := d.x - c.x
  let sy := d.y - c.y
  let den := rx * sy - ry * sx
  let tN := (c.x - a.x) * sy - (c.y - a.y) * sx
  let sN := (c.x - a.x) * ry - (c.y - a.y) * rx
  (den, tN, sN)

/-- Whether segments `a b` and `c d` properly intersect (parallel segments are
reported as non-intersecting). Modelled from the spec. -/
def segIntersects (a b c d : Position) : Bool :=
  let q := segParams a b c d
  if q.1 = 0 then false
  else
    let t := q.2.1 / q.1
    let s := q.2.2 / q.1
    decide (0 ≤ t ∧ t ≤ 1 ∧ 0 ≤ s ∧ s ≤ 1)

/-- Intersection point of segments `a b` and `c d` (the first segment's point
at the computed parameter; arbitrary for parallel segments). Modelled from
the spec. -/
def segIntersectAt (a b c d : Position) : Position :=
  let q := segParams a b c d
  let t := q.2.1 / q.1
  ⟨a.x + t * (b.x - a.x), a.y + t * (b.y - a.y), a.z + t * (b.z - a.z)⟩

/-- `Line::intersects`. Modelled from the spec. -/
def lineIntersectsLine (l m : Line) : Bool :=
  segIntersects l.p1 l.p2 m.p1 m.p2

/-- `Line::intersectsAt`. Modelled from the spec. -/
def lineIntersectsAt (l m : Line) : Position :=
  segIntersectAt l.p1 l.p2 m.p1 m.p2

/-- Modelled from the spec: an ordered sequence of points (`PositionVector`). -/
abbrev PV := List Position

/-- Indexed access with origin fallback, totalizing `operator[]`. -/
def getP (v : PV) (i : Nat) : Position := v.getD i pZero

/-- Access from the back: `backP v 0` is `v[-1]`, `backP v 1` is `v[-2]`. -/
def backP (v : PV) (k : Nat) : Position := getP v (v.length - 1 - k)

/-- `PositionVector::lineAt`. Modelled from the spec. -/
def lineAt (v : PV) (i : Nat) : Line := ⟨getP v i, getP v (i + 1)⟩

/-- `PositionVector::replaceAt`. Modelled from the spec. -/
def replaceAt (v : PV) (i : Nat) (p : Position) : PV := v.set i p

/-- Replace the last point. Modelled from the spec. -/
def replaceBack (v : PV) (p : Position) : PV := v.set (v.length - 1) p

/-- Modelled from the spec: append-without-duplicate
(`push_back_noDoublePos`): the point is appended unless it is almost the
same position as the current last point. -/
def pushBackND (v : PV) (p : Position) : PV :=
  match v with
  | [] => [p]
  | _ => if almostSame (backP v 0) p then v else v ++ [p]

/-- Modelled from the spec: prepend-without-duplicate
(`push_front_noDoublePos`). -/
def pushFrontND (v : PV) (p : Position) : PV :=
  match v with
  | [] => [p]
  | q :: _ => if almostSame q p then v else p :: v

/-- Modelled from the spec: total 2-D arc length of a polyline. -/
def pvLength2D : PV → ℚ
  | [] => 0
  | [_] => 0
  | p :: q :: rest => dist2D p q + pvLength2D (q :: rest)

/-- Modelled from the spec: `PositionVector::extrapolate`, extending the
first segment backwards and the last segment forwards by `d` each. -/
def pvExtrapolate (v : PV) (d : ℚ) : PV :=
  match v with
  | [] => []
  | [p] => [p]
  | p :: q :: rest =>
    let u1 := lineUnit2D ⟨p, q⟩
    let front : Position := ⟨p.x - d * u1.1, p.y - d * u1.2, p.z⟩
    let w := front :: q :: rest
    let lastSeg : Line := ⟨backP w 1, backP w 0⟩
    let u2 := lineUnit2D lastSeg
    let lastPt := backP w 0
    replaceBack w ⟨lastPt.x + d * u2.1, lastPt.y + d * u2.2, lastPt.z⟩

/-- Modelled from the spec: position at a 2-D arc-length offset along the
polyline; negative offsets extrapolate the first segment backwards, offsets
past the end yield the last point. -/
def positionAtOffset2D : PV → ℚ → Position
  | [], _ => pZero
  | [p], _ => p
  | p :: q :: rest, o =>
    let ll := dist2D p q
    if o ≤ ll then linePosAtDist2D ⟨p, q⟩ o
    else positionAtOffset2D (q :: rest) (o - ll)

/-- Nearest offset of the perpendicular foot of `p` on the single segment
`a b`, paired with its squared distance, when the foot falls inside the
segment. Modelled from the spec. -/
def segFoot (a b p : Position) : Option (ℚ × ℚ) :=
  let ll := dist2D a b
  if ll = 0 then none
  else
    let t := ((p.x - a.x) * (b.x - a.x) + (p.y - a.y) * (b.y - a.y)) / ll
    if 0 ≤ t ∧ t ≤ ll then
      let f := linePosAtDist2D ⟨a, b⟩ t
      some (t, distSq2D f p)
    else none

/-- Modelled from the spec: `nearest_offset_to_point2D`.  Scans the segments,
keeping the arc-length offset of the perpendicular projection with minimal
distance; `-1` when no segment admits a perpendicular projection. -/
def nearestOffAux : PV → Position → ℚ → Option (ℚ × ℚ) → ℚ
  | [], _, _, best => (match best with | none => -1 | some b => b.1)
  | [_], _, _, best => (match best with | none => -1 | some b => b.1)
  | a :: b :: rest, p, off, best =>
    let best2 :=
      match segFoot a b p with
      | none => best
      | some (t, dsq) =>
        match best with
        | none => some (off + t, dsq)
        | some (bo, bd) => if dsq < bd then some (off + t, dsq) else some (bo, bd)
    nearestOffAux (b :: rest) p (off + dist2D a b) best2

/-- Modelled from the spec: `PositionVector::nearest_offset_to_point2D`. -/
def nearestOffsetToPoint2D (v : PV) (p : Position) : ℚ :=
  nearestOffAux v p 0 none

/-- Whether a polyline intersects the segment `a b` in some segment.
Modelled from the spec ( `PositionVector::intersects(p1, p2)` ). -/
def pvIntersectsSeg : PV → Position → Position → Bool
  | [], _, _ => false
  | [_], _, _ => false
  | p :: q :: rest, a, b =>
    segIntersects p q a b || pvIntersectsSeg (q :: rest) a b

/-- Whether two polylines intersect (`PositionVector::intersects`).
Modelled from the spec. -/
def pvIntersectsPV : PV → PV → Bool
  | [], _ => false
  | [_], _ => false
  | p :: q :: rest, w =>
    pvIntersectsSeg w p q || pvIntersectsPV (q :: rest) w

/-- Arc-length offsets on `v` of its intersections with the segment `a b`,
in scan order. Modelled from the spec. -/
def pvIntersectLengthsSeg : PV → Position → Position → ℚ → List ℚ
  | [], _, _, _ => []
  | [_], _, _, _ => []
  | p :: q :: rest, a, b, off =>
    let tail := pvIntersectLengthsSeg (q :: rest) a b (off + dist2D p q)
    if segIntersects p q a b then
      (off + dist2D p (segIntersectAt p q a b)) :: tail
    else tail

/-- Modelled from the spec: `intersectsAtLengths2D` against a whole polyline;
returns the offsets on `v`, outer scan over the segments of `v`. -/
def pvIntersectLengthsPV (v w : PV) : List ℚ :=
  pvIntersectLengthsAux v w 0
where
  pvIntersectLengthsAux : PV → PV → ℚ → List ℚ
    | [], _, _ => []
    | [_], _, _ => []
    | p :: q :: rest, w, off =>
      segScan p q w (off) ++ pvIntersectLengthsAux (q :: rest) w (off + dist2D p q)
  segScan : Position → Position → PV → ℚ → List ℚ
    | _, _, [], _ => []
    | _, _, [_], _ => []
    | p, q, a :: b :: rest, off =>
      (if segIntersects p q a b then [off + dist2D p (segIntersectAt p q a b)] else [])
        ++ segScan p q (b :: rest) off

/-- Modelled from the spec: `intersectsAtLengths2D` against a line. -/
def pvIntersectLengthsLine (v : PV) (l : Line) : List ℚ :=
  pvIntersectLengthsSeg v l.p1 l.p2 0

/-- First element of a rational list, `0` when empty (totalizing `[0]`). -/
def headQ (l : List ℚ) : ℚ := l.headD 0

/-- Modelled from the spec: `getSubpart2D`, the sub-polyline between two
2-D arc-length offsets: the position at the lower offset, the interior
vertices, and the position at the upper offset. -/
def getSubpart2D (v : PV) (a b : ℚ) : PV :=
  let first := positionAtOffset2D v a
  let lastP := positionAtOffset2D v b
  first :: subAux v 0 a b ++ [lastP]
where
  subAux : PV → ℚ → ℚ → ℚ → PV
    | [], _, _, _ => []
    | [_], _, _, _ => []
    | p :: q :: rest, off, a, b =>
      let off2 := off + dist2D p q
      (if a < off2 ∧ off2 < b then [q] else []) ++ subAux (q :: rest) off2 a b

/-- Distance from a point to a polyline: minimum over the segments of the
clamped point-to-segment distance. Modelled from the spec. -/
def distToPV : Position → PV → ℚ
  | _, [] => 0
  | p, [a] => dist2D p a
  | p, a :: b :: rest =>
    let dHere :=
      match segFoot a b p with
      | some (_, dsq) => sqrtQ dsq
      | none => min (dist2D p a) (dist2D p b)
    min dHere (distToPV p (b :: rest))

/-- Modelled from the spec: `PositionVector::distances(other, true)`, the
per-point distances of each polyline's points to the other polyline. -/
def pvDistances (v w : PV) : List ℚ :=
  v.map (fun p => distToPV p w) ++ w.map (fun p => distToPV p v)

/-- `VectorHelper::maxValue`. Modelled from the spec. -/
def maxValueQ (l : List ℚ) : ℚ := l.foldl max (headQ l)

/-- `VectorHelper::minValue`. Modelled from the spec. -/
def minValueQ (l : List ℚ) : ℚ := l.foldl min (headQ l)

/-- Drop the first and last points (`eraseAt(0)` then `eraseAt(-1)`).
Modelled from the spec. -/
def dropEnds (v : PV) : PV := (v.drop 1).dropLast

/-- Modelled from the spec: perpendicular offset of a whole polyline
(`move2side`): every segment is shifted sideways by the amount and
consecutive shifted segments are joined at the intersection of their
carrier lines (the shifted vertex when they are parallel). -/
def move2sidePV (v : PV) (amount : ℚ) : PV :=
  match v with
  | [] => []
  | [p] => [p]
  | p :: q :: rest =>
    let s := lineMove2side ⟨p, q⟩ amount
    s.p1 :: moveAux s (q :: rest) amount
where
  moveAux (prev : Line) : PV → ℚ → PV
    | [], _ => [prev.p2]
    | [_], _ => [prev.p2]
    | q :: r :: rest, amount =>
      let s := lineMove2side ⟨q, r⟩ amount
      let pr := segParams prev.p1 prev.p2 s.p1 s.p2
      let joint :=
        if pr.1 = 0 then prev.p2
        else
          let t := pr.2.1 / pr.1
          Position.mk (prev.p1.x + t * (prev.p2.x - prev.p1.x))
            (prev.p1.y + t * (prev.p2.y - prev.p1.y)) q.z
      joint :: moveAux s (r :: rest) amount

/-- Edge identifier (stands in for the `NBEdge*` pointer identity). -/
abbrev EdgeId := Nat

/-- Modelled from the spec: a directed edge with mutable centerline geometry,
lane count and lane-spread mode; the node references at both ends are node
identifiers. -/
structure Edge where
  fromNode : Nat
  toNode : Nat
  geometry : PV
  numLanes : Nat
  spreadCenter : Bool
deriving DecidableEq

/-- The edge store: edge identity resolves to the current edge record.
`setGeometry` updates this environment. -/
abbrev Env := EdgeId → Edge

/-- `NBEdge::setGeometry` as an environment update. -/
def setGeometry (env : Env) (e : EdgeId) (g : PV) : Env :=
  fun i => if i = e then { env e with geometry := g } else env i

/-- Modelled from the spec: `NBEdge::getTotalWidth`, the lane count times the
lane width. -/
def totalWidth (ed : Edge) : ℚ := (ed.numLanes : ℚ) * laneWidthC

/-- Modelled from the spec: a node with its position, optional configured
corner radius, and the angularly ordered list of incident edges. -/
structure Node where
  nid : Nat
  pos : Position
  radius : Option ℚ
deriving DecidableEq

/-- A node together with its angularly ordered incident edge list
(`myAllEdges`). -/
structure NodeCtx where
  node : Node
  allEdges : List EdgeId
deriving DecidableEq

/-- `NBNode::hasIncoming`: the edge ends at this node. -/
def hasIncoming (env : Env) (n : NodeCtx) (e : EdgeId) : Bool :=
  (env e).toNode = n.node.nid

/-- `NBNode::hasOutgoing`: the edge starts at this node. -/
def hasOutgoing (env : Env) (n : NodeCtx) (e : EdgeId) : Bool :=
  (env e).fromNode = n.node.nid

/-- `NBNode::getIncomingEdges` (in the stored angular order). -/
def getIncomingEdges (env : Env) (n : NodeCtx) : List EdgeId :=
  n.allEdges.filter (hasIncoming env n)

/-- `NBNode::getOutgoingEdges` (in the stored angular order). -/
def getOutgoingEdges (env : Env) (n : NodeCtx) : List EdgeId :=
  n.allEdges.filter (hasOutgoing env n)

/-- The edge's centerline oriented to start at the node (reversed for an
incoming edge). Modelled from the spec: all boundary geometries are oriented
outgoing from the node. -/
def orientedFromNode (env : Env) (n : NodeCtx) (e : EdgeId) : PV :=
  if hasIncoming env n e then (env e).geometry.reverse else (env e).geometry

/-- Modelled from the spec: `NBEdge::getCCWBoundaryLine`, the
counterclockwise-most boundary of the edge's physical width as seen from the
node: the oriented centerline shifted left by half the total width for
centered lane spread (the centerline itself for one-sided spread). -/
def getCCWBoundaryLine (env : Env) (n : NodeCtx) (e : EdgeId) : PV :=
  let base := orientedFromNode env n e
  if (env e).spreadCenter then move2sidePV base (-(totalWidth (env e)) / 2)
  else base

/-- Modelled from the spec: `NBEdge::getCWBoundaryLine`, the clockwise-most
boundary of the edge's physical width as seen from the node. -/
def getCWBoundaryLine (env : Env) (n : NodeCtx) (e : EdgeId) : PV :=
  let base := orientedFromNode env n e
  if (env e).spreadCenter then move2sidePV base (totalWidth (env e) / 2)
  else move2sidePV base (totalWidth (env e))

/-- Modelled from the spec: `NBEdge::getAngleAtNode`, the degree direction
angle of the edge at the node (angle of the first oriented-from-node
segment). -/
def getAngleAtNode (env : Env) (n : NodeCtx) (e : EdgeId) : ℚ :=
  lineAngleDeg (lineAt (orientedFromNode env n e) 0)

/-- Modelled from the spec: `GeomHelper::getMinAngleDiff`, the smaller of the
two degree angles between two directions. -/
def getMinAngleDiff (a b : ℚ) : ℚ :=
  let d := |a - b|
  min d (360 - d)

/-- Modelled from the spec: `NBEdge::isTurningDirectionAt`, the other edge is
this edge's U-turn counterpart: its centerline is the reverse of this one. -/
def isTurningDirectionAt (env : Env) (e1 e2 : EdgeId) : Bool :=
  (env e2).geometry = (env e1).geometry.reverse

/-- Modelled from the spec: `NBNode::isSimpleContinuation` — the edge counts
pair up one-in/one-out (with matching lane counts) or two-in/two-out (each
incoming edge finding an outgoing edge with the same lane count). -/
def isSimpleContinuation (env : Env) (n : NodeCtx) : Bool :=
  let inc := getIncomingEdges env n
  let out := getOutgoingEdges env n
  match inc, out with
  | [i1], [o1] => n.allEdges.length = 2 && (env i1).numLanes = (env o1).numLanes
  | [i1, i2], [o1, o2] =>
    n.allEdges.length = 4 &&
      ((env i1).numLanes = (env o1).numLanes || (env i1).numLanes = (env o2).numLanes) &&
      ((env i2).numLanes = (env o1).numLanes || (env i2).numLanes = (env o2).numLanes)
  | _, _ => false

/-- Association list keyed by edge identity (stands in for the `std::map`s
keyed by `NBEdge*`). -/
abbrev EMap (α : Type) := List (EdgeId × α)

/-- Map lookup. -/
def mget {α : Type} : EMap α → EdgeId → Option α
  | [], _ => none
  | kv :: rest, k => if kv.1 = k then some kv.2 else mget rest k

/-- Map lookup with default. -/
def mgetD {α : Type} (m : EMap α) (k : EdgeId) (d : α) : α :=
  (mget m k).getD d

/-- Map membership. -/
def mcontains {α : Type} (m : EMap α) (k : EdgeId) : Bool :=
  (mget m k).isSome

/-- Map insert-or-assign (`operator[] =`): replaces in place, else appends. -/
def mset {α : Type} : EMap α → EdgeId → α → EMap α
  | [], k, v => [(k, v)]
  | kv :: rest, k, v =>
    if kv.1 = k then (k, v) :: rest else kv :: mset rest k v

/-- The `std::map::operator[]` read: default-inserts the zero value when the
key is absent, then returns the stored value. -/
def mtouch {α : Type} (m : EMap α) (k : EdgeId) (d : α) : EMap α :=
  if mcontains m k then m else mset m k d

/-- Geometry maps of the shape computer. -/
abbrev GeomsMap := EMap PV

/-- `computeSameEnd` (NBNodeShapeComputer.cpp, lines 114-136): forces the two
boundary polylines to start at a common perpendicular through the first
line's extension. -/
def computeSameEnd (l1 l2 : PV) : PV × PV :=
  let sub : Line := ⟨linePosAtDist2D (lineAt l1 0) 100, getP l1 1⟩
  let tmp := lineExtrapolate2D (lineRotate90AtP1 sub) 100
  let l1b :=
    if pvIntersectsSeg l1 tmp.p1 tmp.p2 then
      let offset1 := headQ (pvIntersectLengthsLine l1 tmp)
      let tl1 := lineExtrapolate2D ⟨linePosAtDist2D (lineAt l1 0) offset1, getP l1 1⟩ 100
      replaceAt l1 0 tl1.p1
    else l1
  let l2b :=
    if pvIntersectsSeg l2 tmp.p1 tmp.p2 then
      let offset2 := headQ (pvIntersectLengthsLine l2 tmp)
      let tl2 := lineExtrapolate2D ⟨linePosAtDist2D (lineAt l2 0) offset2, getP l2 1⟩ 100
      replaceAt l2 0 tl2.p1
    else l2
  (l1b, l2b)

/-- `NBNodeShapeComputer::replaceLastChecking` (lines 139-163). -/
def replaceLastChecking (g : PV) (decenter : Bool) (counter : PV)
    (counterLanes : Nat) (counterDist : ℚ) (laneDiff : Int) : PV :=
  let counter2 := pvExtrapolate counter 100
  let cp0 := positionAtOffset2D counter2 counterDist
  let t := pvExtrapolate g 100
  let p := nearestOffsetToPoint2D t cp0
  let counterPos := if 0 ≤ p then positionAtOffset2D t p else cp0
  let g1 :=
    if dist3D (backP g 0) counterPos < laneWidthC * (counterLanes : ℚ)
    then replaceBack g counterPos
    else pushBackND g counterPos
  if decenter then
    let l : Line := ⟨backP g1 1, backP g1 0⟩
    let factor := if laneDiff % 2 ≠ 0 then halfLaneAndOffsetC else laneWidthAndOffsetC
    let l2 := lineMove2side l (-factor)
    replaceBack g1 l2.p2
  else g1

/-- `NBNodeShapeComputer::replaceFirstChecking` (lines 166-190). -/
def replaceFirstChecking (g : PV) (decenter : Bool) (counter : PV)
    (counterLanes : Nat) (counterDist : ℚ) (laneDiff : Int) : PV :=
  let counter2 := pvExtrapolate counter 100
  let cp0 := positionAtOffset2D counter2 counterDist
  let t := pvExtrapolate g 100
  let p := nearestOffsetToPoint2D t cp0
  let counterPos := if 0 ≤ p then positionAtOffset2D t p else cp0
  let g1 :=
    if dist3D (getP g 0) counterPos < laneWidthC * (counterLanes : ℚ)
    then replaceAt g 0 counterPos
    else pushFrontND g counterPos
  if decenter then
    let l : Line := ⟨getP g1 0, getP g1 1⟩
    let factor := if laneDiff % 2 ≠ 0 then halfLaneAndOffsetC else laneWidthAndOffsetC
    let l2 := lineMove2side l (-factor)
    replaceAt g1 0 l2.p1
  else g1

/-- The loop body of `NBNodeShapeComputer::computeNodeShapeSmall` (lines
803-824): cut perpendicularly through the node position and record the
crossings of the cut with the edge's two boundary lines. -/
def smallStepPoints (nodePos : Position) (b1 b2 : PV) (ret : PV) : PV :=
  let edgebound1 := lineAt b1 0
  let edgebound2 := lineAt b2 0
  let cross0 := lineRotate90AtP1 edgebound1
  let cross1 := lineAdd cross0 (pSub nodePos cross0.p1)
  let cross := lineExtrapolate2D cross1 500
  let eb1 := lineExtrapolate2D edgebound1 500
  let eb2 := lineExtrapolate2D edgebound2 500
  let ret1 :=
    if lineIntersectsLine cross eb1 then
      let np := lineIntersectsAt cross eb1
      pushBackND ret ⟨np.x, np.y, nodePos.z⟩
    else ret
  if lineIntersectsLine cross eb2 then
    let np := lineIntersectsAt cross eb2
    pushBackND ret1 ⟨np.x, np.y, nodePos.z⟩
  else ret1

/-- `NBNodeShapeComputer::computeNodeShapeSmall` (lines 800-826): the loop
body applied over every incident edge. -/
def computeNodeShapeSmall (env : Env) (n : NodeCtx) : PV :=
  n.allEdges.foldl (fun ret e =>
    smallStepPoints n.node.pos (getCCWBoundaryLine env n e) (getCWBoundaryLine env n e) ret) []

/-- `NBNodeShapeComputer::badIntersection` (lines 667-689). -/
def badIntersection (env : Env) (n : NodeCtx) (e1 e2 : EdgeId)
    (absAngleDiff distance threshold : ℚ) : Bool :=
  let commonLength :=
    min distance (min (pvLength2D (env e1).geometry) (pvLength2D (env e2).geometry))
  let geom1a := (env e1).geometry
  let geom2a := (env e2).geometry
  let geom1b := if (env e1).toNode = n.node.nid then geom1a.reverse else geom1a
  let geom2b := if (env e1).toNode = n.node.nid then geom2a.reverse else geom2a
  let geom1 := getSubpart2D geom1b 0 commonLength
  let geom2 := getSubpart2D geom2b 0 commonLength
  let ds := pvDistances geom1 geom2
  let onTop := decide (maxValueQ ds < threshold)
  let minDistanceThreshold := (totalWidth (env e1) + totalWidth (env e2)) / 2 + positionEps
  let minDist := minValueQ ds
  let parallelDistant := decide (minDist > minDistanceThreshold)
  let curvingTowards :=
    decide (dist2D (getP geom1 0) (getP geom2 0) > minDistanceThreshold ∧
      minDist < minDistanceThreshold)
  onTop || curvingTowards || (parallelDistant && decide (absAngleDiff < 5))

/-- The boundary polyline whose first segment supplies the direction angle of
an edge in `joinSameDirectionEdges` (CCW boundary for incoming edges, CW
boundary for outgoing ones; lines 604-607 and 621-624). -/
def joinAngleGeom (env : Env) (n : NodeCtx) (e : EdgeId) : PV :=
  if hasIncoming env n e then getCCWBoundaryLine env n e else getCWBoundaryLine env n e

/-- The further-out direction angle of a boundary polyline: the second
segment's angle when the first segment is shorter than the 35-unit lookahead
and a second segment exists, the first segment's angle otherwise (lines
615-616 and 632-633). -/
def angleFurther (g : PV) : ℚ :=
  let l := lineAt g 0
  if g.length > 2 ∧ lineLength2D l < 35 then lineAngleDeg (lineAt g 1) else lineAngleDeg l

/-- The full per-pair test of `joinSameDirectionEdges` (lines 636-647): the
two edges are recorded as same-direction when their first-segment angles
differ by less than 20 degrees and they either run in opposite logical
directions, or show ambiguous geometry (angle sign flip at the lookahead), or
intersect badly. -/
def joinPairCondition (env : Env) (n : NodeCtx) (i j : EdgeId) : Bool :=
  let g1 := joinAngleGeom env n i
  let l1 := lineAt g1 0
  let g2 := joinAngleGeom env n j
  let l2 := lineAt g2 0
  let angle1further := angleFurther g1
  let angle2further := angleFurther g2
  let angleDiff := lineAngleDeg l1 - lineAngleDeg l2
  let incoming := hasIncoming env n i
  let differentDirs :=
    (incoming && hasOutgoing env n j) || (!incoming && hasIncoming env n j)
  let angleDiffFurther := angle1further - angle2further
  let ambiguousGeometry :=
    decide ((angleDiff > 0 ∧ angleDiffFurther < 0) ∨ (angleDiff < 0 ∧ angleDiffFurther > 0))
  decide (|angleDiff| < 20) &&
    (differentDirs || ambiguousGeometry ||
      badIntersection env n i j |angleDiff| 100 laneWidthC)

/-- Record two edges as same-direction symmetrically, appending without
duplicates (lines 648-659). -/
def sameInsert (same : EMap (List EdgeId)) (a b : EdgeId) : EMap (List EdgeId) :=
  let la := mgetD same a []
  let la2 := if la.contains b then la else la ++ [b]
  let same2 := mset same a la2
  let lb := mgetD same2 b []
  let lb2 := if lb.contains a then lb else lb ++ [a]
  mset same2 b lb2

/-- Extend the first segment of a stored boundary backwards by 100 units
(lines 608-614: extrapolate the first line and replace the first point). -/
def extendFirst (v : PV) : PV :=
  let tmp := lineExtrapolate2D (lineAt v 0) 100
  replaceAt v 0 tmp.p1

/-- Working state of `joinSameDirectionEdges`: the same-direction relation
and the stored (extended) CCW/CW boundary geometries. -/
structure JoinState where
  same : EMap (List EdgeId)
  geomsCCW : GeomsMap
  geomsCW : GeomsMap
deriving DecidableEq

/-- Inner loop body of `joinSameDirectionEdges` for the pair `(i, j)`
(lines 618-661). -/
def joinInnerStep (env : Env) (n : NodeCtx) (i : EdgeId) (st : JoinState)
    (j : EdgeId) : JoinState :=
  let ccw := mset st.geomsCCW j (extendFirst (getCCWBoundaryLine env n j))
  let cw := mset st.geomsCW j (extendFirst (getCWBoundaryLine env n j))
  let same := if joinPairCondition env n i j then sameInsert st.same i j else st.same
  ⟨same, ccw, cw⟩

/-- Outer loop body of `joinSameDirectionEdges` for edge `i` and the edges
after it (lines 588-663). -/
def joinOuterStep (env : Env) (n : NodeCtx) (st : JoinState) (i : EdgeId)
    (later : List EdgeId) : JoinState :=
  let ccw := mset st.geomsCCW i (extendFirst (getCCWBoundaryLine env n i))
  let cw := mset st.geomsCW i (extendFirst (getCWBoundaryLine env n i))
  later.foldl (joinInnerStep env n i) ⟨st.same, ccw, cw⟩

/-- The nested loops of `joinSameDirectionEdges`: the outer iteration stops
before the last edge. -/
def joinLoop (env : Env) (n : NodeCtx) : JoinState → List EdgeId → JoinState
  | st, [] => st
  | st, [_] => st
  | st, i :: rest => joinLoop env n (joinOuterStep env n st i rest) rest

/-- `NBNodeShapeComputer::joinSameDirectionEdges` (lines 579-664). -/
def joinSameDirectionEdges (env : Env) (n : NodeCtx) : JoinState :=
  joinLoop env n ⟨[], [], []⟩ n.allEdges

/-- Working state of `computeUniqueDirectionList`: the boundary geometries
and the boundary-supplier maps. -/
structure DirState where
  geomsCCW : GeomsMap
  geomsCW : GeomsMap
  ccwBoundary : EMap EdgeId
  cwBoundary : EMap EdgeId
deriving DecidableEq

/-- Boundary adoption when a same-direction partner `j` of `i2` is removed
(`computeUniqueDirectionList`, lines 714-726). -/
def adoptBoundary (inc : EdgeId → Bool) (st : DirState) (i2 j : EdgeId) : DirState :=
  if inc i2 then
    if inc j then st
    else
      let cw := mset st.geomsCW i2 (mgetD st.geomsCW j [])
      let pr := computeSameEnd (mgetD cw i2 []) (mgetD st.geomsCCW i2 [])
      { st with
        geomsCW := mset cw i2 pr.1
        geomsCCW := mset st.geomsCCW i2 pr.2
        cwBoundary := mset st.cwBoundary i2 j }
  else
    if inc j then
      let ccw := mset st.geomsCCW i2 (mgetD st.geomsCCW j [])
      let pr := computeSameEnd (mgetD st.geomsCW i2 []) (mgetD ccw i2 [])
      { st with
        geomsCW := mset st.geomsCW i2 pr.1
        geomsCCW := mset ccw i2 pr.2
        ccwBoundary := mset st.ccwBoundary i2 j }
    else st

/-- Process the recorded partners of `i2` (lines 711-730): each partner still
present in the working list is adopted from and erased; the returned flag
records whether anything was erased. -/
def processOther (inc : EdgeId → Bool) (i2 : EdgeId) :
    List EdgeId → List EdgeId → DirState → List EdgeId × DirState × Bool
  | [], l, st => (l, st, false)
  | j :: rest, l, st =>
    if l.contains j then
      let st2 := adoptBoundary inc st i2 j
      let l2 := l.erase j
      let r := processOther inc i2 rest l2 st2
      (r.1, r.2.1, true)
    else processOther inc i2 rest l st

/-- One scan of the working list (the inner `for` of lines 706-734): find the
first entry with a partner still present, process its partners, and report
the changed list and state; `none` when a full scan changes nothing. -/
def scanPass (same : EMap (List EdgeId)) (inc : EdgeId → Bool) :
    List EdgeId → List EdgeId → DirState → Option (List EdgeId × DirState)
  | [], _, _ => none
  | i2 :: rest, l, st =>
    let other := mgetD same i2 []
    let r := processOther inc i2 other l st
    if r.2.2 then some (r.1, r.2.1) else scanPass same inc rest l st

/-- The `while (changed)` fixpoint of `computeUniqueDirectionList` (lines
703-735), fuelled: every changed scan strictly shrinks the list. -/
def uniqueLoop (same : EMap (List EdgeId)) (inc : EdgeId → Bool) :
    Nat → List EdgeId → DirState → List EdgeId × DirState
  | 0, l, st => (l, st)
  | fuel + 1, l, st =>
    match scanPass same inc l l st with
    | none => (l, st)
    | some (l2, st2) => uniqueLoop same inc fuel l2 st2

/-- The identity boundary-supplier map (lines 215-218). -/
def initialBoundaries (n : NodeCtx) : EMap EdgeId :=
  n.allEdges.foldl (fun m e => mset m e e) []

/-- `NBNodeShapeComputer::computeUniqueDirectionList` (lines 692-737),
started on the node's full edge list with the join results. -/
def computeUniqueDirectionList (env : Env) (n : NodeCtx) (js : JoinState) :
    List EdgeId × DirState :=
  uniqueLoop js.same (hasIncoming env n) (n.allEdges.length + 1) n.allEdges
    ⟨js.geomsCCW, js.geomsCW, initialBoundaries n, initialBoundaries n⟩

/-- `NBNodeShapeComputer::initNeighbors` (lines 740-796): clockwise and
counterclockwise neighbor indices in the angular order plus the two gap
angles, in degrees (the full turn plays the role of `2π`, and the `0.1`
radian tolerance elsewhere is `radTenthDeg`). -/
def initNeighbors (geomsCW geomsCCW : GeomsMap) (newAll : List EdgeId)
    (idx : Nat) (simpleCont : Bool) : Nat × Nat × ℚ × ℚ :=
  let len := newAll.length
  let cwIdx := (idx + 1) % len
  let ccwIdx := (idx + len - 1) % len
  let cur := newAll.getD idx 0
  let cwE := newAll.getD cwIdx 0
  let ccwE := newAll.getD ccwIdx 0
  let angleI := lineAnglePos (lineAt (mgetD geomsCCW cur []) 0)
  let angleCCW := lineAnglePos (lineAt (mgetD geomsCW ccwE []) 0)
  let angleCW := lineAnglePos (lineAt (mgetD geomsCW cwE []) 0)
  let ccad0 := if angleI > angleCCW then angleI - angleCCW else 360 - angleCCW + angleI
  let cad0 := if angleI > angleCW then 360 - angleI + angleCW else angleCW - angleI
  let ccad1 := if ccad0 < 0 then ccad0 + 360 else ccad0
  let ccad2 := if ccad1 > 360 then ccad1 - 360 else ccad1
  let cad1 := if cad0 < 0 then cad0 + 360 else cad0
  let cad2 := if cad1 > 360 then cad1 - 360 else cad1
  let ccad3 := if simpleCont ∧ ccad2 < 45 then ccad2 + 360 else ccad2
  let cad3 := if simpleCont ∧ cad2 < 45 then cad2 + 360 else cad2
  (cwIdx, ccwIdx, cad3, ccad3)

/-- Working state of `computeNodeShapeDefault`: trim distances, extension
record, boundary geometries and suppliers, the mutable edge store and the
early-exit flag of the second pass. -/
structure DefState where
  distances : EMap ℚ
  myExtended : EMap Bool
  geomsCCW : GeomsMap
  geomsCW : GeomsMap
  ccwBoundary : EMap EdgeId
  cwBoundary : EMap EdgeId
  env : Env
  aborted : Bool

/-- First-pass body of `computeNodeShapeDefault` for the direction at `idx`
(lines 236-368): resolve the trim distance, either through the near-parallel
two-direction case (extending the edge geometry if even the extrapolated
boundary misses the mean point) or through boundary intersections with the
angular neighbors. -/
def pass1Step (radius : ℚ) (simpleCont : Bool) (n : NodeCtx)
    (newAll : List EdgeId) (st : DefState) (idx : Nat) : DefState :=
  let i := newAll.getD idx 0
  let nb := initNeighbors st.geomsCW st.geomsCCW newAll idx simpleCont
  let cwi := newAll.getD nb.1 0
  let ccwi := newAll.getD nb.2.1 0
  let cad := nb.2.2.1
  let ccad := nb.2.2.2
  if cwi = ccwi ∧
      ((simpleCont ∧ |ccad - cad| < radTenthDeg) ∨
        (¬simpleCont ∧ |ccad - cad| < 45/2)) then
    let p :=
      if mcontains st.myExtended ccwi then
        pMul (1/2)
          (pAdd (getP (mgetD st.geomsCCW ccwi []) 0) (getP (mgetD st.geomsCW ccwi []) 0))
      else
        pMul (1/4)
          (pAdd
            (pAdd (getP (mgetD st.geomsCCW ccwi []) 0) (getP (mgetD st.geomsCW ccwi []) 0))
            (pAdd (getP (mgetD st.geomsCCW i []) 0) (getP (mgetD st.geomsCW i []) 0)))
    let dist := nearestOffsetToPoint2D (mgetD st.geomsCCW i []) p
    if dist < 0 then
      let g := (st.env i).geometry
      let g2 := if hasIncoming st.env n i then pushBackND g p else pushFrontND g p
      let env2 := setGeometry st.env i g2
      let ccwG := pvExtrapolate (getCCWBoundaryLine env2 n i) 100
      let cwG := pvExtrapolate (getCWBoundaryLine env2 n i) 100
      { st with
        distances := mset st.distances i 100
        myExtended := mset st.myExtended i true
        geomsCCW := mset st.geomsCCW i ccwG
        geomsCW := mset st.geomsCW i cwG
        env := env2 }
    else
      let d2 := if ¬simpleCont then dist + radius else dist
      { st with distances := mset st.distances i d2 }
  else
    if ccad < cad then
      if ¬simpleCont then
        if pvIntersectsPV (mgetD st.geomsCCW i []) (mgetD st.geomsCW ccwi []) then
          let a1 := radius +
            headQ (pvIntersectLengthsPV (mgetD st.geomsCCW i []) (mgetD st.geomsCW ccwi []))
          let dists1 := mset st.distances i a1
          if cwi ≠ ccwi ∧
              pvIntersectsPV (mgetD st.geomsCW i []) (mgetD st.geomsCCW cwi []) then
            let a2 := radius +
              headQ (pvIntersectLengthsPV (mgetD st.geomsCW i []) (mgetD st.geomsCCW cwi []))
            if ccad > 135 ∧ cad > 135 then
              let dists2 := mtouch dists1 cwi 0
              let dists3 := mtouch dists2 ccwi 0
              let mmin := min (mgetD dists3 cwi 0) (mgetD dists3 ccwi 0)
              if mmin > 100 then
                { st with distances := mset dists3 i (5 + 100 - (mmin - 100)) }
              else { st with distances := dists3 }
            else
              if a2 > a1 + positionEps ∧ a2 - a1 < 10 then
                { st with distances := mset dists1 i a2 }
              else { st with distances := dists1 }
          else { st with distances := dists1 }
        else
          if cwi ≠ ccwi ∧
              pvIntersectsPV (mgetD st.geomsCW i []) (mgetD st.geomsCCW cwi []) then
            { st with distances := mset st.distances i (radius +
                headQ (pvIntersectLengthsPV (mgetD st.geomsCW i []) (mgetD st.geomsCCW cwi []))) }
          else { st with distances := mset st.distances i (100 + radius) }
      else
        if pvIntersectsPV (mgetD st.geomsCCW i []) (mgetD st.geomsCW ccwi []) then
          { st with distances := (mset st.distances i
              (headQ (pvIntersectLengthsPV (mgetD st.geomsCCW i []) (mgetD st.geomsCW ccwi [])))) }
        else { st with distances := mset st.distances i 100 }
    else
      if ¬simpleCont then
        if pvIntersectsPV (mgetD st.geomsCW i []) (mgetD st.geomsCCW cwi []) then
          let a1 := radius +
            headQ (pvIntersectLengthsPV (mgetD st.geomsCW i []) (mgetD st.geomsCCW cwi []))
          let dists1 := mset st.distances i a1
          if cwi ≠ ccwi ∧
              pvIntersectsPV (mgetD st.geomsCCW i []) (mgetD st.geomsCW ccwi []) then
            let a2 := radius +
              headQ (pvIntersectLengthsPV (mgetD st.geomsCCW i []) (mgetD st.geomsCW ccwi []))
            if ccad > 135 ∧ cad > 135 then
              let dists2 := mtouch dists1 cwi 0
              let dists3 := mtouch dists2 ccwi 0
              let mmin := min (mgetD dists3 cwi 0) (mgetD dists3 ccwi 0)
              if mmin > 100 then
                { st with distances := mset dists3 i (5 + 100 - (mmin - 100)) }
              else { st with distances := dists3 }
            else
              if a2 > a1 + positionEps ∧ a2 - a1 < 10 then
                { st with distances := mset dists1 i a2 }
              else { st with distances := dists1 }
          else { st with distances := dists1 }
        else
          if cwi ≠ ccwi ∧
              pvIntersectsPV (mgetD st.geomsCCW i []) (mgetD st.geomsCW ccwi []) then
            { st with distances := mset st.distances i (radius +
                headQ (pvIntersectLengthsPV (mgetD st.geomsCCW i []) (mgetD st.geomsCW ccwi []))) }
          else { st with distances := mset st.distances i (100 + radius) }
      else
        if pvIntersectsPV (mgetD st.geomsCW i []) (mgetD st.geomsCCW cwi []) then
          { st with distances := (mset st.distances i
              (headQ (pvIntersectLengthsPV (mgetD st.geomsCW i []) (mgetD st.geomsCCW cwi [])))) }
        else { st with distances := mset st.distances i 100 }

/-- Second-pass body of `computeNodeShapeDefault` for the direction at `idx`
(lines 370-522): directions still without a trim distance get an insertion
point spliced into their centerline (and their boundary suppliers' ones);
any lookup of a still-unresolved neighbor distance at the guarded sites
aborts the whole computation. -/
def pass2Step (n : NodeCtx) (newAll : List EdgeId) (st : DefState)
    (idx : Nat) : DefState :=
  if st.aborted then st else
  let i := newAll.getD idx 0
  if mcontains st.distances i then st else
  let nb := initNeighbors st.geomsCW st.geomsCCW newAll idx false
  let cwi := newAll.getD nb.1 0
  let ccwi := newAll.getD nb.2.1 0
  let p1 :=
    if mcontains st.distances cwi ∧ mgetD st.distances cwi 0 ≠ -1 then
      positionAtOffset2D (mgetD st.geomsCCW cwi []) (mgetD st.distances cwi 0)
    else positionAtOffset2D (mgetD st.geomsCCW cwi []) (-1/10)
  let p2 :=
    if mcontains st.distances ccwi ∧ mgetD st.distances ccwi 0 ≠ -1 then
      positionAtOffset2D (mgetD st.geomsCW ccwi []) (mgetD st.distances ccwi 0)
    else positionAtOffset2D (mgetD st.geomsCW ccwi []) (-1/10)
  let _lDead := lineExtrapolate2D ⟨p1, p2⟩ 1000
  let laneDiffA : Int :=
    ((st.env i).numLanes : Int) - ((st.env ccwi).numLanes : Int)
  let _laneDiffB : Int :=
    if ccwi ≠ cwi then laneDiffA - ((st.env cwi).numLanes : Int) else laneDiffA
  let laneDiffC : Int := 0
  let laneDiffD : Int :=
    if hasIncoming st.env n i ∧ (st.env ccwi).numLanes % 2 = 1 then 1 else laneDiffC
  let laneDiff : Int :=
    if hasOutgoing st.env n i ∧ (st.env cwi).numLanes % 2 = 1 then 1 else laneDiffD
  let center := (st.env i).spreadCenter
  let g0 := (st.env i).geometry
  let step1 : Option (PV) :=
    if hasIncoming st.env n i then
      if hasOutgoing st.env n ccwi ∧ hasOutgoing st.env n cwi then
        if mcontains st.distances cwi then
          some (replaceLastChecking g0 center (st.env cwi).geometry
            (st.env cwi).numLanes (mgetD st.distances cwi 0) laneDiff)
        else none
      else
        if mcontains st.distances ccwi then
          let counter :=
            if hasIncoming st.env n ccwi then (st.env ccwi).geometry.reverse
            else (st.env ccwi).geometry
          some (replaceLastChecking g0 center counter
            (st.env ccwi).numLanes (mgetD st.distances ccwi 0) laneDiff)
        else none
    else
      if hasIncoming st.env n ccwi ∧ hasIncoming st.env n cwi then
        if mcontains st.distances ccwi then
          some (replaceFirstChecking g0 center (st.env ccwi).geometry.reverse
            (st.env ccwi).numLanes (mgetD st.distances ccwi 0) laneDiff)
        else none
      else
        if mcontains st.distances cwi then
          let counter :=
            if hasIncoming st.env n cwi then (st.env cwi).geometry.reverse
            else (st.env cwi).geometry
          some (replaceFirstChecking g0 center counter
            (st.env cwi).numLanes (mgetD st.distances cwi 0) laneDiff)
        else none
  match step1 with
  | none => { st with aborted := true }
  | some g1 =>
    let env1 := setGeometry st.env i g1
    let cwB := mgetD st.cwBoundary i i
    let stepCW : Option (GeomsMap × Env × EMap Bool) :=
      if cwB ≠ i then
        let gB := (env1 cwB).geometry
        let counter0 := (env1 cwi).geometry
        let counter := if hasIncoming env1 n cwi then counter0.reverse else counter0
        if hasIncoming env1 n cwB then
          if mcontains st.distances cwi then
            let gB2 := replaceLastChecking gB center counter
              (env1 cwi).numLanes (mgetD st.distances cwi 0) laneDiff
            let env2 := setGeometry env1 cwB gB2
            some (mset st.geomsCW i (pvExtrapolate (getCWBoundaryLine env2 n cwB) 100),
              env2, mset st.myExtended cwB true)
          else none
        else
          if mcontains st.distances cwi then
            let gB2 := replaceFirstChecking gB center counter
              (env1 cwi).numLanes (mgetD st.distances cwi 0) laneDiff
            let env2 := setGeometry env1 cwB gB2
            some (mset st.geomsCW i (pvExtrapolate (getCWBoundaryLine env2 n cwB) 100),
              env2, mset st.myExtended cwB true)
          else none
      else
        some (mset st.geomsCW i (pvExtrapolate (getCWBoundaryLine env1 n i) 100),
          env1, st.myExtended)
    match stepCW with
    | none => { st with env := env1, aborted := true }
    | some (geomsCW1, env2, ext1) =>
      let ccwB := mgetD st.ccwBoundary i i
      let stepCCW : Option (GeomsMap × Env × EMap Bool) :=
        if ccwB ≠ i then
          let gB := (env2 ccwB).geometry
          let counter0 := (env2 ccwi).geometry
          let counter := if hasIncoming env2 n ccwi then counter0.reverse else counter0
          if hasIncoming env2 n ccwB then
            if mcontains st.distances ccwi then
              let gB2 := replaceLastChecking gB center counter
                (env2 ccwi).numLanes (mgetD st.distances ccwi 0) laneDiff
              let env3 := setGeometry env2 ccwB gB2
              some (mset st.geomsCCW i (pvExtrapolate (getCCWBoundaryLine env3 n ccwB) 100),
                env3, mset ext1 ccwB true)
            else none
          else
            if mcontains st.distances cwi then
              let gB2 := replaceFirstChecking gB center counter
                (env2 cwi).numLanes (mgetD st.distances cwi 0) laneDiff
              let env3 := setGeometry env2 ccwB gB2
              some (mset st.geomsCCW i (pvExtrapolate (getCCWBoundaryLine env3 n ccwB) 100),
                env3, mset ext1 ccwB true)
            else none
        else
          some (mset st.geomsCCW i (pvExtrapolate (getCCWBoundaryLine env2 n i) 100),
            env2, ext1)
      match stepCCW with
      | none => { st with env := env2, aborted := true }
      | some (geomsCCW1, env3, ext2) =>
        let pr := computeSameEnd (mgetD geomsCW1 i []) (mgetD geomsCCW1 i [])
        let geomsCW2 := mset geomsCW1 i pr.1
        let geomsCCW2 := mset geomsCCW1 i pr.2
        let offset : ℚ :=
          if ((st.env cwi).numLanes + (st.env ccwi).numLanes > (st.env i).numLanes) ∨
              ccwB ≠ cwB then 5 else 0
        { st with
          distances := mset st.distances i (100 + offset)
          myExtended := mset ext2 i true
          geomsCCW := geomsCCW2
          geomsCW := geomsCW2
          env := env3 }

/-- Modelled from the spec: `NBNode::computeSmoothShape`, an interpolated
curve with `numPoints` control points running from the end of the first
shape to the start of the second (its first and last points duplicate those
join points). -/
def computeSmoothShape (begShape endShape : PV) (numPoints : Int) : PV :=
  let a := backP begShape 0
  let b := getP endShape 0
  let k := numPoints.toNat
  (List.range k).map (fun j =>
    let t : ℚ := if k ≤ 1 then 0 else (j : ℚ) / ((k : ℚ) - 1)
    ⟨a.x + t * (b.x - a.x), a.y + t * (b.y - a.y), a.z + t * (b.z - a.z)⟩)

/-- `NBNodeShapeComputer::getSmoothCorner` (lines 561-577). -/
def getSmoothCorner (begShape endShape : PV) (begPoint endPoint : Position)
    (cornerDetail : Int) : PV :=
  if cornerDetail > 0 then
    let b := begShape.reverse
    let b2 := replaceBack b begPoint
    let e2 := replaceAt endShape 0 endPoint
    let curve := computeSmoothShape b2 e2 (cornerDetail + 2)
    if curve.length > 2 then dropEnds curve else []
  else []

/-- The polygon assembly of `computeNodeShapeDefault` (lines 524-557): for
every direction, the trimmed CCW and CW boundary points (clipped to the
boundary length), with smoothed corners between consecutive directions and a
final curve segment closing the ring. -/
def buildStep (cd : Int) (n : NodeCtx) (newAll : List EdgeId) (st : DefState)
    (ret : PV) (idx : Nat) : PV :=
  let i := newAll.getD idx 0
  let ccwBound := mgetD st.geomsCCW i []
  let len := pvLength2D ccwBound
  let off0 := mgetD st.distances i 0
  let offset : ℚ := if off0 = -1 then -1/10 else off0
  let p0 := if len ≥ offset then positionAtOffset2D ccwBound offset
    else positionAtOffset2D ccwBound len
  let p : Position := ⟨p0.x, p0.y, n.node.pos.z⟩
  let ret1 :=
    if idx ≠ 0 then
      let prev := newAll.getD (idx - 1) 0
      ret ++ getSmoothCorner ((mgetD st.geomsCW prev []).reverse) ccwBound
        (backP ret 0) p cd
    else ret
  let ret2 := pushBackND ret1 p
  let cwBound := mgetD st.geomsCW i []
  let len2 := pvLength2D cwBound
  let q0 := if len2 ≥ offset then positionAtOffset2D cwBound offset
    else positionAtOffset2D cwBound len2
  let q : Position := ⟨q0.x, q0.y, n.node.pos.z⟩
  pushBackND ret2 q

/-- The complete polygon assembly including the closing curve (line 556). -/
def buildPolygon (cd : Int) (n : NodeCtx) (newAll : List EdgeId)
    (st : DefState) : PV :=
  let ret := (List.range newAll.length).foldl (buildStep cd n newAll st) []
  let lastE := newAll.getD (newAll.length - 1) 0
  let firstE := newAll.getD 0 0
  ret ++ getSmoothCorner (mgetD st.geomsCW lastE []) (mgetD st.geomsCCW firstE [])
    (backP ret 0) (getP ret 0) cd

/-- The node's corner radius with the default applied (line 201). -/
def radiusValue (n : NodeCtx) : ℚ := n.node.radius.getD defaultRadiusC

/-- The unique direction list computed by the Default algorithm (line 222). -/
def defaultNewAll (env : Env) (n : NodeCtx) : List EdgeId :=
  (computeUniqueDirectionList env n (joinSameDirectionEdges env n)).1

/-- The initial state of the trim passes: empty distance and extension maps
plus the boundary geometry/supplier maps of the direction merge. -/
def defaultStart (env : Env) (n : NodeCtx) : DefState :=
  let u := computeUniqueDirectionList env n (joinSameDirectionEdges env n)
  ⟨[], [], u.2.geomsCCW, u.2.geomsCW, u.2.ccwBoundary, u.2.cwBoundary, env, false⟩

/-- The state after the first trim pass (lines 236-368). -/
def pass1Result (env : Env) (n : NodeCtx) (simpleCont : Bool) : DefState :=
  (List.range (defaultNewAll env n).length).foldl
    (pass1Step (radiusValue n) simpleCont n (defaultNewAll env n)) (defaultStart env n)

/-- The state after the second trim pass (lines 370-522). -/
def pass2Result (env : Env) (n : NodeCtx) (simpleCont : Bool) : DefState :=
  (List.range (defaultNewAll env n).length).foldl
    (pass2Step n (defaultNewAll env n)) (pass1Result env n simpleCont)

/-- `NBNodeShapeComputer::computeNodeShapeDefault` (lines 194-558), returning
the polygon and the (possibly mutated) edge store. -/
def computeNodeShapeDefault (cd : Int) (env : Env) (n : NodeCtx)
    (simpleCont : Bool) : PV × Env :=
  if n.allEdges.length < 2 then ([], env)
  else if (defaultNewAll env n).length < 2 then ([], env)
  else if (pass2Result env n simpleCont).aborted then
    ([], (pass2Result env n simpleCont).env)
  else
    (buildPolygon cd n (defaultNewAll env n) (pass2Result env n simpleCont),
      (pass2Result env n simpleCont).env)

/-- The aggregated angular deviation of the simple-continuation check in
`compute` (lines 88-98): the maximum over the incoming/outgoing pairs of the
minimal angle difference, restricted to deviations of at most 22.5 degrees. -/
def maxAngleAtNode (env : Env) (n : NodeCtx) : ℚ :=
  (getIncomingEdges env n).foldl (fun m i =>
    (getOutgoingEdges env n).foldl (fun m2 j =>
      let ad := getMinAngleDiff (getAngleAtNode env n i) (getAngleAtNode env n j)
      if 45/2 ≥ ad then max ad m2 else m2) m) 0

/-- The `singleDirection` test of `compute` (lines 67-75): one incident edge,
or exactly two incident edges with the single incoming edge's U-turn
counterpart as the outgoing one. -/
def singleDirectionB (env : Env) (n : NodeCtx) : Bool :=
  n.allEdges.length = 1 ||
    (n.allEdges.length = 2 &&
      match getIncomingEdges env n, getOutgoingEdges env n with
      | [i1], o1 :: _ => isTurningDirectionAt env i1 o1
      | _, _ => false)

/-- The Default path with the `< 3`-point fallback applied (lines 105-110):
run `computeNodeShapeDefault` and, when it yields fewer than three points,
return the Small fallback computed over the mutated edge store instead. -/
def defaultWithFallback (cd : Int) (env : Env) (n : NodeCtx) : PV × Env :=
  if (computeNodeShapeDefault cd env n (isSimpleContinuation env n)).1.length < 3 then
    (computeNodeShapeSmall (computeNodeShapeDefault cd env n (isSimpleContinuation env n)).2 n,
      (computeNodeShapeDefault cd env n (isSimpleContinuation env n)).2)
  else computeNodeShapeDefault cd env n (isSimpleContinuation env n)

/-- `NBNodeShapeComputer::compute` (lines 61-111): the shape classifier with
its fallback tiers, returning the polygon and the possibly mutated edge
store. -/
def compute (cd : Int) (env : Env) (n : NodeCtx) : PV × Env :=
  if singleDirectionB env n then (computeNodeShapeSmall env n, env)
  else
    if isSimpleContinuation env n ∧ maxAngleAtNode env n > 45/2 then
      (computeNodeShapeSmall env n, env)
    else defaultWithFallback cd env n

/-!  Concrete inputs used by the counterexamples and witnesses. -/

set_option maxRecDepth 1000000

/-- A one-lane edge arriving at the origin node from the west. -/
def edgeWestIn : Edge := ⟨2, 1, [⟨-50, 0, 0⟩, ⟨0, 0, 0⟩], 1, true⟩

/-- A one-lane edge leaving the origin node on a 3-4-5 bearing. -/
def edgeBearingOut : Edge := ⟨1, 3, [⟨0, 0, 0⟩, ⟨40, 30, 0⟩], 1, true⟩

/-- Edge store of the simple-continuation counterexample node. -/
def envC1 : Env := fun i => if i = 10 then edgeWestIn else edgeBearingOut

/-- A simple-continuation node (one incoming, one outgoing, equal lane
counts) at the origin. -/
def nodeC1 : NodeCtx := ⟨⟨1, ⟨0, 0, 0⟩, none⟩, [10, 11]⟩

/-- A one-lane edge arriving at the origin from the east. -/
def edgeEastIn : Edge := ⟨2, 1, [⟨50, 0, 0⟩, ⟨0, 0, 0⟩], 1, true⟩

/-- A one-lane edge leaving the origin to the east (parallel to
`edgeEastIn`, but not its exact reverse). -/
def edgeEastOut : Edge := ⟨1, 3, [⟨0, 0, 0⟩, ⟨80, 0, 0⟩], 1, true⟩

/-- Edge store of the two-parallel-edges node. -/
def envC4 : Env := fun i => if i = 20 then edgeEastIn else edgeEastOut

/-- A node whose two incident edges run in the same geometric direction and
get merged into a single Direction. -/
def nodeC4 : NodeCtx := ⟨⟨1, ⟨0, 0, 0⟩, none⟩, [20, 21]⟩

/-- A one-lane edge arriving at the origin on a 3-4-5 bearing. -/
def edgeBearingIn : Edge := ⟨2, 1, [⟨40, 30, 0⟩, ⟨0, 0, 0⟩], 1, true⟩

/-- Edge store of the dead-end node. -/
def envC3 : Env := fun _ => edgeBearingIn

/-- A dead-end node with exactly one incident edge. -/
def nodeC3 : NodeCtx := ⟨⟨1, ⟨0, 0, 0⟩, none⟩, [50]⟩

/-- C8 claim-side predicate, phrased after the claim's wording: over the
shorter of the given horizon and each edge's own centerline length, (a) the
maximal per-point distance between the two clipped centerlines is below the
lane-width threshold, or (b) the two start points are farther apart than the
combined half-widths plus epsilon while the minimal distance comes within
that bound, or (c) the minimal distance stays above the combined half-widths
for the whole horizon and the absolute angle difference is below 5 degrees. -/
def badIntersectionSpec (env : Env) (n : NodeCtx) (e1 e2 : EdgeId)
    (absAngleDiff distance threshold : ℚ) : Prop :=
  let commonLength :=
    min distance (min (pvLength2D (env e1).geometry) (pvLength2D (env e2).geometry))
  let geom1b :=
    if (env e1).toNode = n.node.nid then (env e1).geometry.reverse else (env e1).geometry
  let geom2b :=
    if (env e1).toNode = n.node.nid then (env e2).geometry.reverse else (env e2).geometry
  let geom1 := getSubpart2D geom1b 0 commonLength
  let geom2 := getSubpart2D geom2b 0 commonLength
  let ds := pvDistances geom1 geom2
  let half := (totalWidth (env e1) + totalWidth (env e2)) / 2 + positionEps
  maxValueQ ds < threshold ∨
    (dist2D (getP geom1 0) (getP geom2 0) > half ∧ minValueQ ds < half) ∨
    (minValueQ ds > half ∧ absAngleDiff < 5)

/-!  The same-direction candidate test (C7). -/

/-- C7 claim-side initial direction angle, following the claim's wording:
measured at the lookahead point (the second segment) instead of the very
first segment whenever that first segment's 2-D length is below the 35-unit
threshold. -/
def claimInitialAngle (env : Env) (n : NodeCtx) (e : EdgeId) : ℚ :=
  let g := joinAngleGeom env n e
  if g.length > 2 ∧ lineLength2D (lineAt g 0) < 35 then lineAngleDeg (lineAt g 1)
  else lineAngleDeg (lineAt g 0)

/-- C7 claim-side candidate predicate: the absolute difference of the two
claim-side initial direction angles is strictly below 20 degrees. -/
def claimCandidate (env : Env) (n : NodeCtx) (i j : EdgeId) : Bool :=
  decide (|claimInitialAngle env n i - claimInitialAngle env n j| < 20)

/-- Whether the join recorded the two edges as same-direction (an entry of
`j` in `same[i]`). -/
def mergeRecorded (js : JoinState) (i j : EdgeId) : Bool :=
  (mgetD js.same i []).contains j

/-- Recorded-pair membership of a same map. -/
def pairRec (s : EMap (List EdgeId)) (x y : EdgeId) : Bool :=
  (mgetD s x []).contains y

/-- `a` occurs in the list strictly before an occurrence of `b`. -/
def pairBefore : List EdgeId → EdgeId → EdgeId → Prop
  | [], _, _ => False
  | i :: rest, a, b => (i = a ∧ b ∈ rest) ∨ pairBefore rest a b

instance pairBeforeDec : ∀ (l : List EdgeId) (a b : EdgeId), Decidable (pairBefore l a b)
  | [], _, _ => isFalse (fun h => h)
  | _ :: rest, a, b =>
    have : Decidable (pairBefore rest a b) := pairBeforeDec rest a b
    inferInstanceAs (Decidable (_ ∨ _))

/-- The same-map component of the inner join loop over the later edges. -/
def innerFoldSame (env : Env) (n : NodeCtx) (i : EdgeId) (later : List EdgeId)
    (s : EMap (List EdgeId)) : EMap (List EdgeId) :=
  later.foldl
    (fun s2 j => if joinPairCondition env n i j then sameInsert s2 i j else s2) s

/-- The same-map component of the whole pairwise join. -/
def sameFoldPairs (env : Env) (n : NodeCtx) :
    List EdgeId → EMap (List EdgeId) → EMap (List EdgeId)
  | [], s => s
  | [_], s => s
  | i :: rest, s => sameFoldPairs env n rest (innerFoldSame env n i rest s)

/-- A one-lane edge arriving at the origin after a bend: its last (10-unit)
segment runs east, its previous segment on a 3-4-5 bearing. -/
def edgeBendIn : Edge := ⟨2, 1, [⟨50, 30, 0⟩, ⟨10, 0, 0⟩, ⟨0, 0, 0⟩], 1, true⟩

/-- A one-lane edge leaving the origin straight east. -/
def edgeEastOutStraight : Edge := ⟨1, 3, [⟨0, 0, 0⟩, ⟨60, 0, 0⟩], 1, true⟩

/-- Edge store of the short-first-segment node. -/
def envC7 : Env := fun i => if i = 40 then edgeBendIn else edgeEastOutStraight

/-- A node whose incoming edge has a short (below the 35-unit lookahead)
first segment. -/
def nodeC7 : NodeCtx := ⟨⟨1, ⟨0, 0, 0⟩, none⟩, [40, 41]⟩

/-!  Monotonic growth of edge centerlines (C2). -/

/-- The new polyline contains the old one contiguously and in order: points
were only appended or prepended, none removed or replaced. -/
def geomGrows (old new : PV) : Prop := ∃ pre post, new = pre ++ old ++ post

/-- Pointwise growth of the edge store. -/
def EnvGrows (e0 e1 : Env) : Prop :=
  ∀ k, geomGrows ((e0 k).geometry) ((e1 k).geometry)

/-!  Single-edge node geometry (C3). -/

/-- Proof helper: the two-point polyline `[P0, p1]` shifted perpendicularly
by `d`, written with an explicit segment length `l`. -/
def shiftTwo (P0 p1 : Position) (l d : ℚ) : PV :=
  [⟨P0.x + d * (p1.y - P0.y) / l, P0.y + d * (P0.x - p1.x) / l, P0.z⟩,
   ⟨p1.x + d * (p1.y - P0.y) / l, p1.y + d * (P0.x - p1.x) / l, p1.z⟩]

/-!  Missing trim-distance dependencies (C5). -/

/-- C5 claim-side detector: the first-pass step for the direction at `idx`
reaches the wide-gap adjustment (the read of both neighbors' distances at
lines 313-316 / 343-346) while at least one of those neighbor distances is
still unresolved. -/
def pass1StepReadsMissing (st : DefState) (newAll : List EdgeId)
    (simpleCont : Bool) (idx : Nat) : Bool :=
  let i := newAll.getD idx 0
  let nb := initNeighbors st.geomsCW st.geomsCCW newAll idx simpleCont
  let cwi := newAll.getD nb.1 0
  let ccwi := newAll.getD nb.2.1 0
  let cad := nb.2.2.1
  let ccad := nb.2.2.2
  if cwi = ccwi ∧
      ((simpleCont ∧ |ccad - cad| < radTenthDeg) ∨
        (¬simpleCont ∧ |ccad - cad| < 45/2)) then
    false
  else if ccad < cad then
    !simpleCont && pvIntersectsPV (mgetD st.geomsCCW i []) (mgetD st.geomsCW ccwi [])
      && decide (cwi ≠ ccwi)
      && pvIntersectsPV (mgetD st.geomsCW i []) (mgetD st.geomsCCW cwi [])
      && decide (ccad > 135 ∧ cad > 135)
      && (!mcontains st.distances cwi || !mcontains st.distances ccwi)
  else
    !simpleCont && pvIntersectsPV (mgetD st.geomsCW i []) (mgetD st.geomsCCW cwi [])
      && decide (cwi ≠ ccwi)
      && pvIntersectsPV (mgetD st.geomsCCW i []) (mgetD st.geomsCW ccwi [])
      && decide (ccad > 135 ∧ cad > 135)
      && (!mcontains st.distances cwi || !mcontains st.distances ccwi)

/-- C5 claim-side: some direction's first-pass step reads a neighbor's trim
distance that is missing at that point (recomputed over the pass-1 states). -/
def defaultPass1Missing (env : Env) (n : NodeCtx) (simpleCont : Bool) : Bool :=
  ((List.range (defaultNewAll env n).length).foldl
    (fun pr idx =>
      (pr.1 || pass1StepReadsMissing pr.2 (defaultNewAll env n) simpleCont idx,
        pass1Step (radiusValue n) simpleCont n (defaultNewAll env n) pr.2 idx))
    (false, defaultStart env n)).1

/-- A one-lane edge arriving at the origin from the upper 3-4-5 bearing. -/
def edgeNWIn : Edge := ⟨3, 1, [⟨-40, 30, 0⟩, ⟨0, 0, 0⟩], 1, true⟩

/-- A one-lane edge arriving at the origin from the lower 3-4-5 bearing. -/
def edgeSWIn : Edge := ⟨4, 1, [⟨-40, -30, 0⟩, ⟨0, 0, 0⟩], 1, true⟩

/-- Edge store of the wide-gap three-direction node. -/
def envC5 : Env :=
  fun i => if i = 30 then edgeEastIn else if i = 31 then edgeNWIn else edgeSWIn

/-- A node with three incoming directions whose first direction has both
angular gaps above 135 degrees. -/
def nodeC5 : NodeCtx := ⟨⟨1, ⟨0, 0, 0⟩, none⟩, [30, 31, 32]⟩

/-- The first guarded neighbor lookup of the second pass (lines 407-416 and
427-436) finds a missing entry for the direction at `idx`. -/
def pass2PrimaryMissing (n : NodeCtx) (newAll : List EdgeId) (st : DefState)
    (idx : Nat) : Bool :=
  let i := newAll.getD idx 0
  let nb := initNeighbors st.geomsCW st.geomsCCW newAll idx false
  let cwi := newAll.getD nb.1 0
  let ccwi := newAll.getD nb.2.1 0
  if hasIncoming st.env n i then
    if hasOutgoing st.env n ccwi ∧ hasOutgoing st.env n cwi then
      !mcontains st.distances cwi
    else !mcontains st.distances ccwi
  else
    if hasIncoming st.env n ccwi ∧ hasIncoming st.env n cwi then
      !mcontains st.distances ccwi
    else !mcontains st.distances cwi

/-- A short one-lane edge arriving at the origin from the east. -/
def edgeInP2 : Edge := ⟨2, 1, [⟨30, 0, 0⟩, ⟨0, 0, 0⟩], 1, true⟩

/-- A short one-lane edge leaving the origin to the west. -/
def edgeOutP2 : Edge := ⟨1, 3, [⟨0, 0, 0⟩, ⟨-30, 0, 0⟩], 1, true⟩

/-- Edge store for the second-pass abort witness. -/
def envP2 : Env := fun i => if i = 60 then edgeInP2 else edgeOutP2

/-- Node for the second-pass abort witness. -/
def nodeP2 : NodeCtx := ⟨⟨1, ⟨0, 0, 0⟩, none⟩, [60, 61]⟩

/-- A trim-pass state with no distances resolved at all. -/
def stP2 : DefState := ⟨[], [], [], [], [], [], envP2, false⟩

/-!  Theorems. -/

/-!  Basic lemmas about the association maps. -/

theorem mget_mset_self {α : Type} (m : EMap α) (k : EdgeId) (v : α) :
    mget (mset m k v) k = some v := by
  induction m with
  | nil => simp [mset, mget]
  | cons kv rest ih =>
    by_cases h : kv.1 = k
    · simp [mset, h, mget]
    · simp [mset, h, mget, ih]

theorem mget_mset_ne {α : Type} (m : EMap α) (k j : EdgeId) (v : α) (h : j ≠ k) :
    mget (mset m k v) j = mget m j := by
  induction m with
  | nil => simp [mset, mget, (Ne.symm h)]
  | cons kv rest ih =>
    by_cases hk : kv.1 = k
    · subst hk
      simp [mset, mget, (Ne.symm h), h]
    · by_cases hj : kv.1 = j
      · simp [mset, hk, mget, hj, h]
      · simp [mset, hk, mget, hj, ih]

theorem mcontains_mset_self {α : Type} (m : EMap α) (k : EdgeId) (v : α) :
    mcontains (mset m k v) k = true := by
  simp [mcontains, mget_mset_self]

theorem mcontains_mset_of {α : Type} (m : EMap α) (k j : EdgeId) (v : α)
    (h : mcontains m j = true) : mcontains (mset m k v) j = true := by
  by_cases hj : j = k
  · subst hj; exact mcontains_mset_self m j v
  · rw [mcontains, mget_mset_ne m k j v hj]
    exact h

theorem mcontains_mtouch_of {α : Type} (m : EMap α) (k j : EdgeId) (d : α)
    (h : mcontains m j = true) : mcontains (mtouch m k d) j = true := by
  unfold mtouch
  by_cases hc : mcontains m k = true
  · simp only [hc, if_true]
    exact h
  · rw [if_neg (by simp [hc])]
    exact mcontains_mset_of m k j d h

/-!  The angular check of the classifier. -/

theorem foldl_pres {α β : Type} (P : α → Prop) (f : α → β → α)
    (h : ∀ a b, P a → P (f a b)) : ∀ (l : List β) (a : α), P a → P (l.foldl f a) := by
  intro l
  induction l with
  | nil => intro a ha; exact ha
  | cons b rest ih => intro a ha; exact ih _ (h a b ha)

/-- The aggregated angular deviation can never exceed 22.5 degrees: only
deviations at most 22.5 enter the maximum. -/
theorem maxAngleAtNode_le (env : Env) (n : NodeCtx) :
    maxAngleAtNode env n ≤ 45/2 := by
  unfold maxAngleAtNode
  apply foldl_pres (fun m : ℚ => m ≤ 45/2)
  · intro a b ha
    apply foldl_pres (fun m : ℚ => m ≤ 45/2)
    · intro m j hm
      by_cases hc : (45/2 : ℚ) ≥
          getMinAngleDiff (getAngleAtNode env n b) (getAngleAtNode env n j)
      · simpa [hc] using max_le hc hm
      · simpa [hc] using hm
    · exact ha
  · norm_num

/-- The shape of `compute`: the angular branch of the simple-continuation
check never fires, so every node that is not a single-direction node runs
the Default algorithm with its `< 3`-point fallback. -/
theorem compute_shape (cd : Int) (env : Env) (n : NodeCtx) :
    compute cd env n =
      if singleDirectionB env n then (computeNodeShapeSmall env n, env)
      else defaultWithFallback cd env n := by
  unfold compute
  by_cases hs : singleDirectionB env n = true
  · simp [hs]
  · have hmax : ¬(isSimpleContinuation env n = true ∧ maxAngleAtNode env n > 45/2) :=
      fun hcontra => absurd hcontra.2 (not_lt.mpr (maxAngleAtNode_le env n))
    rw [if_neg hs, if_neg hs, if_neg hmax]

/-- The Default algorithm gives up immediately when the direction merge
leaves fewer than two unique directions. -/
theorem default_empty_of_few (cd : Int) (env : Env) (n : NodeCtx) (sc : Bool)
    (h : (defaultNewAll env n).length < 2) :
    computeNodeShapeDefault cd env n sc = ([], env) := by
  unfold computeNodeShapeDefault
  by_cases hlen : n.allEdges.length < 2
  · rw [if_pos hlen]
  · rw [if_neg hlen, if_pos h]

/-- C10: the angular check on simple-continuation nodes can never select the
Small fallback: the aggregated deviation only ranges over deviations of at
most 22.5 degrees, so it never exceeds 22.5, the `maxAngle > 22.5` return is
unreachable, and every node that is not a single-direction node (in
particular every simple continuation) proceeds to `computeNodeShapeDefault`
with its under-three-points fallback. -/
theorem C10_angular_branch_unreachable (cd : Int) (env : Env) (n : NodeCtx) :
    maxAngleAtNode env n ≤ 45/2 ∧
      compute cd env n =
        (if singleDirectionB env n then (computeNodeShapeSmall env n, env)
         else defaultWithFallback cd env n) :=
  ⟨maxAngleAtNode_le env n, compute_shape cd env n⟩

/-- C1 counterexample: a node that is a simple continuation whose aggregated
angular deviation is at most 22.5 degrees, yet `compute` returns the Default
polygon (four points) and not the result of `computeNodeShapeSmall`. -/
theorem C1_counterexample :
    isSimpleContinuation envC1 nodeC1 = true ∧
    singleDirectionB envC1 nodeC1 = false ∧
    maxAngleAtNode envC1 nodeC1 ≤ 45/2 ∧
    (compute 0 envC1 nodeC1).1 ≠ computeNodeShapeSmall envC1 nodeC1 ∧
    (compute 0 envC1 nodeC1).1 = (computeNodeShapeDefault 0 envC1 nodeC1 true).1 ∧
    (compute 0 envC1 nodeC1).1.length = 4 := by
  refine ⟨by decide, by decide, by decide, by decide, by decide, by decide⟩

/-- C1 amended: a simple-continuation node (that is not a single-direction
node) does not return the Small fallback from the angular check; it proceeds
to the Default algorithm, and the Small fallback is used only when the
Default polygon has fewer than three points. -/
theorem C1_amended (cd : Int) (env : Env) (n : NodeCtx)
    (hs : singleDirectionB env n = false)
    (_hg : isSimpleContinuation env n = true) :
    compute cd env n = defaultWithFallback cd env n := by
  rw [compute_shape, if_neg (by simp [hs])]

/-- Witness for the amended C1 at the concrete simple-continuation node. -/
theorem C1_amended_witness :
    singleDirectionB envC1 nodeC1 = false ∧
      isSimpleContinuation envC1 nodeC1 = true ∧
      compute 0 envC1 nodeC1 = defaultWithFallback 0 envC1 nodeC1 :=
  ⟨by decide, by decide, C1_amended 0 envC1 nodeC1 (by decide) (by decide)⟩

/-- C4: for every node reaching the Default path (not a single-direction
node), when `computeNodeShapeDefault` yields fewer than three points,
`compute` returns the Small fallback computed over the resulting edge store,
and otherwise returns the Default polygon unchanged. -/
theorem C4_default_fallback (cd : Int) (env : Env) (n : NodeCtx)
    (h : singleDirectionB env n = false) :
    ((computeNodeShapeDefault cd env n (isSimpleContinuation env n)).1.length < 3 →
      (compute cd env n).1 =
        computeNodeShapeSmall
          (computeNodeShapeDefault cd env n (isSimpleContinuation env n)).2 n) ∧
    (¬(computeNodeShapeDefault cd env n (isSimpleContinuation env n)).1.length < 3 →
      compute cd env n = computeNodeShapeDefault cd env n (isSimpleContinuation env n)) := by
  rw [compute_shape, if_neg (by simp [h])]
  unfold defaultWithFallback
  constructor
  · intro hlt; rw [if_pos hlt]
  · intro hge; rw [if_neg hge]

/-- Witness for C4 at a node whose Default run yields the empty polygon. -/
theorem C4_witness :
    singleDirectionB envC4 nodeC4 = false ∧
    (computeNodeShapeDefault 0 envC4 nodeC4 (isSimpleContinuation envC4 nodeC4)).1.length < 3 ∧
    (compute 0 envC4 nodeC4).1 =
      computeNodeShapeSmall
        (computeNodeShapeDefault 0 envC4 nodeC4 (isSimpleContinuation envC4 nodeC4)).2 nodeC4 :=
  ⟨by decide, by decide,
    (C4_default_fallback 0 envC4 nodeC4 (by decide)).1 (by decide)⟩

/-- C9: whenever the direction merge leaves fewer than two unique directions
(in particular for every node with fewer than two incident edges, whose
merge result can only be smaller), `computeNodeShapeDefault` returns the
empty polygon with the edge store untouched, and `compute` falls through to
the Small fallback. -/
theorem C9_few_directions (cd : Int) (env : Env) (n : NodeCtx) (sc : Bool)
    (h : (defaultNewAll env n).length < 2) :
    computeNodeShapeDefault cd env n sc = ([], env) ∧
      (compute cd env n).1 = computeNodeShapeSmall env n := by
  refine ⟨default_empty_of_few cd env n sc h, ?_⟩
  rw [compute_shape]
  by_cases hs : singleDirectionB env n = true
  · simp [hs]
  · rw [if_neg (by simp [hs])]
    unfold defaultWithFallback
    rw [default_empty_of_few cd env n (isSimpleContinuation env n) h]
    simp

/-- Witness for C9 at the dead-end node with a single incident edge. -/
theorem C9_witness :
    (defaultNewAll envC3 nodeC3).length < 2 ∧
    computeNodeShapeDefault 0 envC3 nodeC3 false = ([], envC3) ∧
    (compute 0 envC3 nodeC3).1 = computeNodeShapeSmall envC3 nodeC3 :=
  ⟨by decide, (C9_few_directions 0 envC3 nodeC3 false (by decide)).1,
    (C9_few_directions 0 envC3 nodeC3 false (by decide)).2⟩

/-- C8: `badIntersection` at the 100-unit horizon and lane-width threshold
holds exactly when one of the three claim conditions (on top of each other,
curving together, parallel but distant) holds. -/
theorem C8_badIntersection_iff (env : Env) (n : NodeCtx) (e1 e2 : EdgeId)
    (absAngleDiff : ℚ) :
    badIntersection env n e1 e2 absAngleDiff 100 laneWidthC = true ↔
      badIntersectionSpec env n e1 e2 absAngleDiff 100 laneWidthC := by
  unfold badIntersection badIntersectionSpec
  simp only [Bool.or_eq_true, Bool.and_eq_true, decide_eq_true_eq]
  tauto

/-!  Idempotence of the direction merge (C6). -/

theorem processOther_no_change (inc : EdgeId → Bool) (i2 : EdgeId) :
    ∀ (other l : List EdgeId) (st : DirState), (∀ j ∈ other, j ∉ l) →
      processOther inc i2 other l st = (l, st, false) := by
  intro other
  induction other with
  | nil => intro l st _; rfl
  | cons j rest ih =>
    intro l st h
    have hj : ¬l.contains j = true := by
      simp only [List.contains, List.elem_eq_mem, decide_eq_true_eq]
      exact h j (by simp)
    simp only [processOther]
    rw [if_neg hj]
    exact ih l st (fun x hx => h x (by simp [hx]))

theorem scanPass_none_of_noPartner (same : EMap (List EdgeId)) (inc : EdgeId → Bool) :
    ∀ (scan l : List EdgeId) (st : DirState),
      (∀ e ∈ scan, ∀ p ∈ mgetD same e [], p ∉ l) →
      scanPass same inc scan l st = none := by
  intro scan
  induction scan with
  | nil => intro l st _; rfl
  | cons e rest ih =>
    intro l st h
    simp only [scanPass]
    rw [processOther_no_change inc e (mgetD same e []) l st (h e (by simp))]
    exact ih l st (fun x hx => h x (by simp [hx]))

theorem uniqueLoop_noop (same : EMap (List EdgeId)) (inc : EdgeId → Bool)
    (fuel : Nat) (l : List EdgeId) (st : DirState)
    (h : ∀ e ∈ l, ∀ p ∈ mgetD same e [], p ∉ l) :
    uniqueLoop same inc fuel l st = (l, st) := by
  cases fuel with
  | zero => rfl
  | succ f =>
    simp only [uniqueLoop]
    rw [scanPass_none_of_noPartner same inc l l st h]

theorem processOther_length_le (inc : EdgeId → Bool) (i2 : EdgeId) :
    ∀ (other l : List EdgeId) (st : DirState),
      (processOther inc i2 other l st).1.length ≤ l.length := by
  intro other
  induction other with
  | nil => intro l st; exact le_refl _
  | cons j rest ih =>
    intro l st
    by_cases hc : l.contains j = true
    · simp only [processOther, hc, if_true]
      exact le_trans (ih _ _) (List.length_erase_le _ _)
    · simp only [processOther]
      rw [if_neg hc]
      exact ih l st

theorem processOther_length_lt (inc : EdgeId → Bool) (i2 : EdgeId) :
    ∀ (other l : List EdgeId) (st : DirState),
      (processOther inc i2 other l st).2.2 = true →
      (processOther inc i2 other l st).1.length < l.length := by
  intro other
  induction other with
  | nil => intro l st h; cases h
  | cons j rest ih =>
    intro l st hflag
    by_cases hc : l.contains j = true
    · have hmem : j ∈ l := by
        simpa only [List.contains, List.elem_eq_mem, decide_eq_true_eq] using hc
      have hlen : (l.erase j).length = l.length - 1 := List.length_erase_of_mem hmem
      have hpos : 0 < l.length := List.length_pos.mpr (List.ne_nil_of_mem hmem)
      simp only [processOther, hc, if_true]
      calc (processOther inc i2 rest (l.erase j) (adoptBoundary inc st i2 j)).1.length
          ≤ (l.erase j).length := processOther_length_le inc i2 rest _ _
        _ < l.length := by omega
    · simp only [processOther] at hflag ⊢
      rw [if_neg hc] at hflag ⊢
      exact ih l st hflag

theorem scanPass_some_lt (same : EMap (List EdgeId)) (inc : EdgeId → Bool) :
    ∀ (scan l : List EdgeId) (st : DirState) (l2 : List EdgeId) (st2 : DirState),
      scanPass same inc scan l st = some (l2, st2) → l2.length < l.length := by
  intro scan
  induction scan with
  | nil => intro l st l2 st2 h; cases h
  | cons e rest ih =>
    intro l st l2 st2 h
    simp only [scanPass] at h
    by_cases hflag : (processOther inc e (mgetD same e []) l st).2.2 = true
    · rw [if_pos hflag] at h
      have h2 := processOther_length_lt inc e (mgetD same e []) l st hflag
      cases h
      exact h2
    · rw [if_neg hflag] at h
      exact ih l st l2 st2 h

theorem uniqueLoop_scanPass_none (same : EMap (List EdgeId)) (inc : EdgeId → Bool) :
    ∀ (fuel : Nat) (l : List EdgeId) (st : DirState), l.length < fuel →
      scanPass same inc (uniqueLoop same inc fuel l st).1
        (uniqueLoop same inc fuel l st).1 (uniqueLoop same inc fuel l st).2 = none := by
  intro fuel
  induction fuel with
  | zero => intro l st h; exact absurd h (Nat.not_lt_zero _)
  | succ f ih =>
    intro l st h
    cases hscan : scanPass same inc l l st with
    | none =>
      simp only [uniqueLoop, hscan]
    | some pr =>
      obtain ⟨l2, st2⟩ := pr
      simp only [uniqueLoop, hscan]
      exact ih l2 st2
        (lt_of_lt_of_le (scanPass_some_lt same inc l l st l2 st2 hscan)
          (Nat.lt_succ_iff.mp h))

/-- C6: `computeUniqueDirectionList` is idempotent.  When the working list is
already fully merged (no edge in the list has a recorded partner still in
the list), running the merge removes no element and leaves both the list and
the boundary/supplier maps exactly as given; and unconditionally, a second
run of the merge loop over a first run's output is a no-op. -/
theorem C6_unique_direction_idempotent (env : Env) (n : NodeCtx) (js : JoinState)
    (h : ∀ e ∈ n.allEdges, ∀ p ∈ mgetD js.same e [], p ∉ n.allEdges) :
    computeUniqueDirectionList env n js =
      (n.allEdges,
        ⟨js.geomsCCW, js.geomsCW, initialBoundaries n, initialBoundaries n⟩) ∧
    (∀ (g : Nat) (l : List EdgeId) (st : DirState),
      uniqueLoop js.same (hasIncoming env n) g
          (uniqueLoop js.same (hasIncoming env n) (l.length + 1) l st).1
          (uniqueLoop js.same (hasIncoming env n) (l.length + 1) l st).2 =
        uniqueLoop js.same (hasIncoming env n) (l.length + 1) l st) := by
  constructor
  · unfold computeUniqueDirectionList
    exact uniqueLoop_noop js.same (hasIncoming env n) _ n.allEdges _ h
  · intro g l st
    cases g with
    | zero => rfl
    | succ gf =>
      set r := uniqueLoop js.same (hasIncoming env n) (l.length + 1) l st with hr
      have hnone := uniqueLoop_scanPass_none js.same (hasIncoming env n)
        (l.length + 1) l st (Nat.lt_succ_self _)
      rw [← hr] at hnone
      simp only [uniqueLoop, hnone]

/-- Witness for C6 at the direction-merge state of the concrete
simple-continuation node (its recorded same-direction relation is empty). -/
theorem C6_witness :
    (∀ e ∈ nodeC1.allEdges,
      ∀ p ∈ mgetD (joinSameDirectionEdges envC1 nodeC1).same e [], p ∉ nodeC1.allEdges) ∧
    computeUniqueDirectionList envC1 nodeC1 (joinSameDirectionEdges envC1 nodeC1) =
      (nodeC1.allEdges,
        ⟨(joinSameDirectionEdges envC1 nodeC1).geomsCCW,
          (joinSameDirectionEdges envC1 nodeC1).geomsCW,
          initialBoundaries nodeC1, initialBoundaries nodeC1⟩) :=
  ⟨by decide,
    (C6_unique_direction_idempotent envC1 nodeC1 (joinSameDirectionEdges envC1 nodeC1)
      (by decide)).1⟩

theorem pairBefore_mem_left : ∀ (l : List EdgeId) (a b : EdgeId),
    pairBefore l a b → a ∈ l := by
  intro l
  induction l with
  | nil => intro a b h; cases h
  | cons i rest ih =>
    intro a b h
    rcases h with ⟨rfl, _⟩ | h2
    · exact List.mem_cons_self _ _
    · exact List.mem_cons_of_mem _ (ih a b h2)

theorem pairBefore_mem_right : ∀ (l : List EdgeId) (a b : EdgeId),
    pairBefore l a b → b ∈ l := by
  intro l
  induction l with
  | nil => intro a b h; cases h
  | cons i rest ih =>
    intro a b h
    rcases h with ⟨_, hb⟩ | h2
    · exact List.mem_cons_of_mem _ hb
    · exact List.mem_cons_of_mem _ (ih a b h2)

theorem mgetD_mset_self {α : Type} (m : EMap α) (k : EdgeId) (v d : α) :
    mgetD (mset m k v) k d = v := by
  simp [mgetD, mget_mset_self]

theorem mgetD_mset_ne {α : Type} (m : EMap α) (k j : EdgeId) (v d : α) (h : j ≠ k) :
    mgetD (mset m k v) j d = mgetD m j d := by
  simp [mgetD, mget_mset_ne m k j v h]

theorem contains_condAppend (l : List EdgeId) (b : EdgeId) :
    (if l.contains b then l else l ++ [b]).contains b = true := by
  by_cases h : b ∈ l
  · rw [if_pos (by simp [List.contains, List.elem_eq_mem, h])]
    simp [List.contains, List.elem_eq_mem, h]
  · rw [if_neg (by simp [List.contains, List.elem_eq_mem, h])]
    simp [List.contains, List.elem_eq_mem]

theorem contains_condAppend_ne (l : List EdgeId) (b x : EdgeId) (h : x ≠ b) :
    (if l.contains b then l else l ++ [b]).contains x = l.contains x := by
  by_cases hb : b ∈ l
  · rw [if_pos (by simp [List.contains, List.elem_eq_mem, hb])]
  · rw [if_neg (by simp [List.contains, List.elem_eq_mem, hb])]
    simp [List.contains, List.elem_eq_mem, h]

theorem pairRec_sameInsert_left (s : EMap (List EdgeId)) (a b : EdgeId) :
    pairRec (sameInsert s a b) a b = true := by
  unfold pairRec sameInsert
  by_cases hab : a = b
  · subst hab
    rw [mgetD_mset_self, mgetD_mset_self]
    exact contains_condAppend _ _
  · rw [mgetD_mset_ne _ _ _ _ _ hab, mgetD_mset_self]
    exact contains_condAppend _ _

theorem pairRec_sameInsert_right (s : EMap (List EdgeId)) (a b : EdgeId) :
    pairRec (sameInsert s a b) b a = true := by
  unfold pairRec sameInsert
  rw [mgetD_mset_self]
  exact contains_condAppend _ _

theorem pairRec_sameInsert_other (s : EMap (List EdgeId)) (c d x y : EdgeId)
    (h1 : ¬(x = c ∧ y = d)) (h2 : ¬(x = d ∧ y = c)) :
    pairRec (sameInsert s c d) x y = pairRec s x y := by
  unfold pairRec sameInsert
  by_cases hxd : x = d
  · subst hxd
    have hyc : y ≠ c := fun hy => h2 ⟨rfl, hy⟩
    rw [mgetD_mset_self]
    by_cases hxc : x = c
    · subst hxc
      have hyd : y ≠ x := fun hy => h1 ⟨rfl, hy⟩
      rw [contains_condAppend_ne _ _ _ hyc, mgetD_mset_self,
        contains_condAppend_ne _ _ _ hyd]
    · rw [contains_condAppend_ne _ _ _ hyc, mgetD_mset_ne _ _ _ _ _ hxc]
  · rw [mgetD_mset_ne _ _ _ _ _ hxd]
    by_cases hxc : x = c
    · subst hxc
      have hyd : y ≠ d := fun hy => h1 ⟨rfl, hy⟩
      rw [mgetD_mset_self, contains_condAppend_ne _ _ _ hyd]
    · rw [mgetD_mset_ne _ _ _ _ _ hxc]

theorem joinFold_same (env : Env) (n : NodeCtx) (i : EdgeId) :
    ∀ (later : List EdgeId) (st : JoinState),
      (later.foldl (joinInnerStep env n i) st).same =
        innerFoldSame env n i later st.same := by
  intro later
  induction later with
  | nil => intro st; rfl
  | cons j rest ih =>
    intro st
    simp only [List.foldl_cons]
    rw [ih]
    rfl

theorem joinLoop_same (env : Env) (n : NodeCtx) :
    ∀ (l : List EdgeId) (st : JoinState),
      (joinLoop env n st l).same = sameFoldPairs env n l st.same := by
  intro l
  induction l with
  | nil => intro st; rfl
  | cons i rest ih =>
    intro st
    cases rest with
    | nil => rfl
    | cons j t =>
      show (joinLoop env n (joinOuterStep env n st i (j :: t)) (j :: t)).same = _
      rw [ih]
      unfold joinOuterStep
      rw [joinFold_same]
      rfl

theorem innerFoldSame_untouched (env : Env) (n : NodeCtx) (i : EdgeId) :
    ∀ (later : List EdgeId) (s : EMap (List EdgeId)) (x y : EdgeId),
      (∀ j ∈ later, ¬(x = i ∧ y = j) ∧ ¬(x = j ∧ y = i)) →
      pairRec (innerFoldSame env n i later s) x y = pairRec s x y := by
  intro later
  induction later with
  | nil => intro s x y _; rfl
  | cons j rest ih =>
    intro s x y h
    unfold innerFoldSame
    simp only [List.foldl_cons]
    have hstep :
        pairRec (innerFoldSame env n i rest
          (if joinPairCondition env n i j then sameInsert s i j else s)) x y =
        pairRec (if joinPairCondition env n i j then sameInsert s i j else s) x y :=
      ih _ x y (fun j2 hj2 => h j2 (by simp [hj2]))
    show pairRec (innerFoldSame env n i rest _) x y = _
    rw [hstep]
    by_cases hc : joinPairCondition env n i j = true
    · rw [if_pos hc]
      exact pairRec_sameInsert_other s i j x y (h j (by simp)).1 (h j (by simp)).2
    · rw [if_neg hc]

theorem innerFoldSame_rec_left (env : Env) (n : NodeCtx) (i : EdgeId) :
    ∀ (later : List EdgeId) (s : EMap (List EdgeId)) (b : EdgeId),
      later.Nodup → b ∈ later → i ≠ b →
      pairRec (innerFoldSame env n i later s) i b =
        (pairRec s i b || joinPairCondition env n i b) := by
  intro later
  induction later with
  | nil => intro s b _ hb; cases hb
  | cons j rest ih =>
    intro s b hnd hb hib
    unfold innerFoldSame
    simp only [List.foldl_cons]
    by_cases hjb : j = b
    · subst hjb
      have hjrest : j ∉ rest := (List.nodup_cons.mp hnd).1
      show pairRec (innerFoldSame env n i rest _) i j = _
      rw [innerFoldSame_untouched env n i rest _ i j
        (fun j2 hj2 => ⟨fun hcon => hjrest (hcon.2 ▸ hj2), fun hcon => hib hcon.2.symm⟩)]
      by_cases hc : joinPairCondition env n i j = true
      · rw [if_pos hc, hc]
        rw [pairRec_sameInsert_left]
        exact (Bool.or_true _).symm
      · have hcf : joinPairCondition env n i j = false := Bool.eq_false_iff.mpr hc
        rw [if_neg hc, hcf, Bool.or_false]
    · rcases List.mem_cons.mp hb with hb1 | hb2
      · exact absurd hb1.symm hjb
      · have hrec := ih (if joinPairCondition env n i j then sameInsert s i j else s)
          b (List.nodup_cons.mp hnd).2 hb2 hib
        show pairRec (innerFoldSame env n i rest _) i b = _
        rw [hrec]
        congr 1
        by_cases hc : joinPairCondition env n i j = true
        · rw [if_pos hc]
          exact congrArg (fun z => z) (pairRec_sameInsert_other s i j i b
            (fun hcon => hjb (hcon.2.symm ▸ rfl)) (fun hcon => hib hcon.2.symm))
        · rw [if_neg hc]

theorem innerFoldSame_rec_right (env : Env) (n : NodeCtx) (i : EdgeId) :
    ∀ (later : List EdgeId) (s : EMap (List EdgeId)) (b : EdgeId),
      later.Nodup → b ∈ later → i ≠ b →
      pairRec (innerFoldSame env n i later s) b i =
        (pairRec s b i || joinPairCondition env n i b) := by
  intro later
  induction later with
  | nil => intro s b _ hb; cases hb
  | cons j rest ih =>
    intro s b hnd hb hib
    unfold innerFoldSame
    simp only [List.foldl_cons]
    by_cases hjb : j = b
    · subst hjb
      have hjrest : j ∉ rest := (List.nodup_cons.mp hnd).1
      show pairRec (innerFoldSame env n i rest _) j i = _
      rw [innerFoldSame_untouched env n i rest _ j i
        (fun j2 hj2 => ⟨fun hcon => hib hcon.1.symm, fun hcon => hjrest (hcon.1 ▸ hj2)⟩)]
      by_cases hc : joinPairCondition env n i j = true
      · rw [if_pos hc, hc]
        rw [pairRec_sameInsert_right]
        exact (Bool.or_true _).symm
      · have hcf : joinPairCondition env n i j = false := Bool.eq_false_iff.mpr hc
        rw [if_neg hc, hcf, Bool.or_false]
    · rcases List.mem_cons.mp hb with hb1 | hb2
      · exact absurd hb1.symm hjb
      · have hrec := ih (if joinPairCondition env n i j then sameInsert s i j else s)
          b (List.nodup_cons.mp hnd).2 hb2 hib
        show pairRec (innerFoldSame env n i rest _) b i = _
        rw [hrec]
        congr 1
        by_cases hc : joinPairCondition env n i j = true
        · rw [if_pos hc]
          exact pairRec_sameInsert_other s i j b i
            (fun hcon => hib hcon.1.symm) (fun hcon => hjb (hcon.1.symm ▸ rfl))
        · rw [if_neg hc]

theorem sameFoldPairs_untouched (env : Env) (n : NodeCtx) :
    ∀ (l : List EdgeId) (s : EMap (List EdgeId)) (x y : EdgeId),
      (x ∉ l ∨ y ∉ l) → pairRec (sameFoldPairs env n l s) x y = pairRec s x y := by
  intro l
  induction l with
  | nil => intro s x y _; rfl
  | cons i rest ih =>
    intro s x y hxy
    have hrest : x ∉ rest ∨ y ∉ rest := by
      rcases hxy with hx | hy
      · exact Or.inl (fun hmem => hx (List.mem_cons_of_mem _ hmem))
      · exact Or.inr (fun hmem => hy (List.mem_cons_of_mem _ hmem))
    cases rest with
    | nil => rfl
    | cons j t =>
      show pairRec (sameFoldPairs env n (j :: t) (innerFoldSame env n i (j :: t) s)) x y = _
      rw [ih _ x y hrest]
      apply innerFoldSame_untouched env n i (j :: t) s x y
      intro j2 hj2
      rcases hxy with hx | hy
      · exact ⟨fun hcon => hx (hcon.1 ▸ List.mem_cons_self _ _),
          fun hcon => hx (hcon.1 ▸ List.mem_cons_of_mem _ hj2)⟩
      · exact ⟨fun hcon => hy (hcon.2 ▸ List.mem_cons_of_mem _ hj2),
          fun hcon => hy (hcon.2 ▸ List.mem_cons_self _ _)⟩

theorem sameFoldPairs_rec (env : Env) (n : NodeCtx) :
    ∀ (l : List EdgeId) (s : EMap (List EdgeId)) (a b : EdgeId),
      l.Nodup → pairBefore l a b →
      pairRec (sameFoldPairs env n l s) a b =
          (pairRec s a b || joinPairCondition env n a b) ∧
      pairRec (sameFoldPairs env n l s) b a =
          (pairRec s b a || joinPairCondition env n a b) := by
  intro l
  induction l with
  | nil => intro s a b _ h; cases h
  | cons i rest ih =>
    intro s a b hnd hord
    have hirest : i ∉ rest := (List.nodup_cons.mp hnd).1
    cases rest with
    | nil =>
      rcases hord with ⟨_, hb⟩ | h2
      · cases hb
      · cases h2
    | cons j t =>
      rcases hord with ⟨rfl, hb⟩ | h2
      · have hib : i ≠ b := fun hcon => hirest (hcon ▸ hb)
        constructor
        · show pairRec (sameFoldPairs env n (j :: t)
            (innerFoldSame env n i (j :: t) s)) i b = _
          rw [sameFoldPairs_untouched env n (j :: t) _ i b (Or.inl hirest)]
          exact innerFoldSame_rec_left env n i (j :: t) s b
            (List.nodup_cons.mp hnd).2 hb hib
        · show pairRec (sameFoldPairs env n (j :: t)
            (innerFoldSame env n i (j :: t) s)) b i = _
          rw [sameFoldPairs_untouched env n (j :: t) _ b i (Or.inr hirest)]
          exact innerFoldSame_rec_right env n i (j :: t) s b
            (List.nodup_cons.mp hnd).2 hb hib
      · have hamem : a ∈ (j :: t) := pairBefore_mem_left _ a b h2
        have hbmem : b ∈ (j :: t) := pairBefore_mem_right _ a b h2
        have hai : a ≠ i := fun hcon => hirest (hcon ▸ hamem)
        have hbi : b ≠ i := fun hcon => hirest (hcon ▸ hbmem)
        have hstep1 :
            pairRec (innerFoldSame env n i (j :: t) s) a b = pairRec s a b :=
          innerFoldSame_untouched env n i (j :: t) s a b
            (fun j2 _ => ⟨fun hcon => hai hcon.1, fun hcon => hbi hcon.2⟩)
        have hstep2 :
            pairRec (innerFoldSame env n i (j :: t) s) b a = pairRec s b a :=
          innerFoldSame_untouched env n i (j :: t) s b a
            (fun j2 _ => ⟨fun hcon => hbi hcon.1, fun hcon => hai hcon.2⟩)
        have hih := ih (innerFoldSame env n i (j :: t) s) a b
          (List.nodup_cons.mp hnd).2 h2
        constructor
        · show pairRec (sameFoldPairs env n (j :: t)
            (innerFoldSame env n i (j :: t) s)) a b = _
          rw [hih.1, hstep1]
        · show pairRec (sameFoldPairs env n (j :: t)
            (innerFoldSame env n i (j :: t) s)) b a = _
          rw [hih.2, hstep2]

theorem joinSame_eq (env : Env) (n : NodeCtx) :
    (joinSameDirectionEdges env n).same = sameFoldPairs env n n.allEdges [] := by
  unfold joinSameDirectionEdges
  exact joinLoop_same env n n.allEdges ⟨[], [], []⟩

/-- C7 counterexample: a pair of edges whose claim-side initial direction
angles (using the lookahead on the short first segment) differ by 33.75
degrees — so by the claim the pair is no merge candidate — yet the code
records it as same-direction, because the code's candidate filter uses the
very first segment's angles (difference 0) and only consults the lookahead
in the ambiguous-geometry test. -/
theorem C7_counterexample :
    mergeRecorded (joinSameDirectionEdges envC7 nodeC7) 40 41 = true ∧
    claimCandidate envC7 nodeC7 40 41 = false ∧
    (joinAngleGeom envC7 nodeC7 40).length > 2 ∧
    lineLength2D (lineAt (joinAngleGeom envC7 nodeC7 40) 0) < 35 :=
  ⟨by decide, by decide, by decide, by decide⟩

/-- C7 amended: for every ordered pair of distinct incident edges (the list
being duplicate-free), the pair is recorded as same-direction exactly when
`joinPairCondition` holds — the under-20-degree filter on the *first*
boundary segments' angles, conjoined with opposite-directions, ambiguous
geometry (where alone the lookahead angle enters) or a bad intersection —
recorded symmetrically in both directions. -/
theorem C7_amended (env : Env) (n : NodeCtx) (a b : EdgeId)
    (hnd : n.allEdges.Nodup) (hord : pairBefore n.allEdges a b) :
    mergeRecorded (joinSameDirectionEdges env n) a b = joinPairCondition env n a b ∧
    mergeRecorded (joinSameDirectionEdges env n) b a = joinPairCondition env n a b := by
  have h := sameFoldPairs_rec env n n.allEdges [] a b hnd hord
  constructor
  · show pairRec (joinSameDirectionEdges env n).same a b = _
    rw [joinSame_eq, h.1]
    rfl
  · show pairRec (joinSameDirectionEdges env n).same b a = _
    rw [joinSame_eq, h.2]
    rfl

/-- Witness for the amended C7 at the short-first-segment node. -/
theorem C7_amended_witness :
    nodeC7.allEdges.Nodup ∧ pairBefore nodeC7.allEdges 40 41 ∧
    mergeRecorded (joinSameDirectionEdges envC7 nodeC7) 40 41 =
      joinPairCondition envC7 nodeC7 40 41 :=
  ⟨by decide, by decide, (C7_amended envC7 nodeC7 40 41 (by decide) (by decide)).1⟩

theorem geomGrows_refl (g : PV) : geomGrows g g := ⟨[], [], by simp⟩

theorem geomGrows_trans {a b c : PV} (h1 : geomGrows a b) (h2 : geomGrows b c) :
    geomGrows a c := by
  obtain ⟨p1, q1, rfl⟩ := h1
  obtain ⟨p2, q2, rfl⟩ := h2
  exact ⟨p2 ++ p1, q1 ++ q2, by simp⟩

theorem geomGrows_pushBackND (g : PV) (p : Position) :
    geomGrows g (pushBackND g p) := by
  cases g with
  | nil => exact ⟨[], [p], by simp [pushBackND]⟩
  | cons q rest =>
    by_cases h : almostSame (backP (q :: rest) 0) p = true
    · simp only [pushBackND, h, if_true]
      exact geomGrows_refl _
    · simp only [pushBackND, h]
      rw [if_neg (by simp [h])]
      exact ⟨[], [p], by simp⟩

theorem geomGrows_pushFrontND (g : PV) (p : Position) :
    geomGrows g (pushFrontND g p) := by
  cases g with
  | nil => exact ⟨[p], [], by simp [pushFrontND]⟩
  | cons q rest =>
    by_cases h : almostSame q p = true
    · simp only [pushFrontND, h, if_true]
      exact geomGrows_refl _
    · simp only [pushFrontND, h]
      rw [if_neg (by simp [h])]
      exact ⟨[p], [], by simp⟩

theorem envGrows_refl (e : Env) : EnvGrows e e := fun _ => geomGrows_refl _

theorem envGrows_trans {a b c : Env} (h1 : EnvGrows a b) (h2 : EnvGrows b c) :
    EnvGrows a c := fun k => geomGrows_trans (h1 k) (h2 k)

theorem envGrows_set (env : Env) (i : EdgeId) (g : PV)
    (h : geomGrows ((env i).geometry) g) : EnvGrows env (setGeometry env i g) := by
  intro k
  unfold setGeometry
  by_cases hk : k = i
  · subst hk
    simp only [if_pos rfl]
    exact h
  · rw [if_neg hk]
    exact geomGrows_refl _

theorem pass1Step_env_grows (r : ℚ) (sc : Bool) (n : NodeCtx) (na : List EdgeId)
    (st : DefState) (idx : Nat) :
    EnvGrows st.env (pass1Step r sc n na st idx).env := by
  simp only [pass1Step]
  split_ifs <;>
    first
      | exact envGrows_refl _
      | exact envGrows_set _ _ _ (geomGrows_pushBackND _ _)
      | exact envGrows_set _ _ _ (geomGrows_pushFrontND _ _)

set_option maxHeartbeats 3200000

theorem pass1Step_contains_self (r : ℚ) (sc : Bool) (n : NodeCtx)
    (na : List EdgeId) (st : DefState) (idx : Nat) :
    mcontains (pass1Step r sc n na st idx).distances (na.getD idx 0) = true := by
  simp only [pass1Step]
  split_ifs <;>
    first
      | exact mcontains_mset_self _ _ _
      | exact mcontains_mtouch_of _ _ _ _
          (mcontains_mtouch_of _ _ _ _ (mcontains_mset_self _ _ _))

theorem pass1Step_contains_mono (r : ℚ) (sc : Bool) (n : NodeCtx)
    (na : List EdgeId) (st : DefState) (idx : Nat) (k : EdgeId)
    (h : mcontains st.distances k = true) :
    mcontains (pass1Step r sc n na st idx).distances k = true := by
  simp only [pass1Step]
  split_ifs <;>
    first
      | exact h
      | exact mcontains_mset_of _ _ _ _ h
      | exact mcontains_mset_of _ _ _ _ (mcontains_mset_of _ _ _ _ h)
      | exact mcontains_mset_of _ _ _ _ (mcontains_mtouch_of _ _ _ _
          (mcontains_mtouch_of _ _ _ _ (mcontains_mset_of _ _ _ _ h)))
      | exact mcontains_mtouch_of _ _ _ _
          (mcontains_mtouch_of _ _ _ _ (mcontains_mset_of _ _ _ _ h))

theorem pass1_fold_mono (r : ℚ) (sc : Bool) (n : NodeCtx) (na : List EdgeId) :
    ∀ (l : List Nat) (st : DefState) (k : EdgeId),
      mcontains st.distances k = true →
      mcontains ((l.foldl (pass1Step r sc n na) st).distances) k = true := by
  intro l
  induction l with
  | nil => intro st k h; exact h
  | cons a rest ih =>
    intro st k h
    exact ih _ k (pass1Step_contains_mono r sc n na st a k h)

theorem pass1_fold_contains (r : ℚ) (sc : Bool) (n : NodeCtx) (na : List EdgeId) :
    ∀ (l : List Nat) (st : DefState) (idx : Nat), idx ∈ l →
      mcontains ((l.foldl (pass1Step r sc n na) st).distances) (na.getD idx 0) = true := by
  intro l
  induction l with
  | nil => intro st idx h; cases h
  | cons a rest ih =>
    intro st idx h
    rcases List.mem_cons.mp h with h1 | h2
    · subst h1
      exact pass1_fold_mono r sc n na rest _ _
        (pass1Step_contains_self r sc n na st idx)
    · exact ih _ idx h2

theorem pass1_fold_env_grows (r : ℚ) (sc : Bool) (n : NodeCtx) (na : List EdgeId) :
    ∀ (l : List Nat) (st : DefState),
      EnvGrows st.env ((l.foldl (pass1Step r sc n na) st).env) := by
  intro l
  induction l with
  | nil => intro st; exact envGrows_refl _
  | cons a rest ih =>
    intro st
    exact envGrows_trans (pass1Step_env_grows r sc n na st a) (ih _)

theorem pass2Step_skip (n : NodeCtx) (na : List EdgeId) (st : DefState)
    (idx : Nat) (h : mcontains st.distances (na.getD idx 0) = true) :
    pass2Step n na st idx = st := by
  by_cases ha : st.aborted = true
  · simp only [pass2Step, ha, if_true]
  · simp only [pass2Step, ha]
    rw [if_neg (by simp [ha]), if_pos h]

theorem pass2_fold_skip (n : NodeCtx) (na : List EdgeId) :
    ∀ (l : List Nat) (st : DefState),
      (∀ idx ∈ l, mcontains st.distances (na.getD idx 0) = true) →
      l.foldl (pass2Step n na) st = st := by
  intro l
  induction l with
  | nil => intro st _; rfl
  | cons a rest ih =>
    intro st h
    rw [List.foldl_cons, pass2Step_skip n na st a (h a (by simp))]
    exact ih st (fun idx hidx => h idx (by simp [hidx]))

/-- The first trim pass resolves a distance for every direction, so the
second pass (the only place that replaces points of an edge centerline)
skips every direction and changes nothing. -/
theorem pass2Result_eq_pass1 (env : Env) (n : NodeCtx) (sc : Bool) :
    pass2Result env n sc = pass1Result env n sc := by
  unfold pass2Result
  apply pass2_fold_skip
  intro idx hidx
  unfold pass1Result
  exact pass1_fold_contains _ _ _ _ _ _ idx hidx

theorem pass1Result_env_grows (env : Env) (n : NodeCtx) (sc : Bool) :
    EnvGrows env (pass1Result env n sc).env := by
  have h := pass1_fold_env_grows (radiusValue n) sc n (defaultNewAll env n)
    (List.range (defaultNewAll env n).length) (defaultStart env n)
  exact h

theorem default_env_grows (cd : Int) (env : Env) (n : NodeCtx) (sc : Bool) :
    EnvGrows env ((computeNodeShapeDefault cd env n sc).2) := by
  unfold computeNodeShapeDefault
  split_ifs
  · exact envGrows_refl env
  · exact envGrows_refl env
  · rw [pass2Result_eq_pass1]
    exact pass1Result_env_grows env n sc
  · rw [pass2Result_eq_pass1]
    exact pass1Result_env_grows env n sc

/-- C2: over one whole `compute` invocation, every edge's centerline only
grows: the final stored geometry is the original one with points possibly
prepended or appended, every original point retained in order (the second
trim pass, the only code that can replace a point, never processes any
direction because the first pass resolves them all). -/
theorem C2_monotonic_growth (cd : Int) (env : Env) (n : NodeCtx) (e : EdgeId) :
    geomGrows ((env e).geometry) (((compute cd env n).2 e).geometry) ∧
      (∀ sc, pass2Result env n sc = pass1Result env n sc) := by
  refine ⟨?_, fun sc => pass2Result_eq_pass1 env n sc⟩
  rw [compute_shape]
  by_cases hs : singleDirectionB env n = true
  · simp only [hs, if_true]
    exact geomGrows_refl _
  · rw [if_neg (by simp [hs])]
    unfold defaultWithFallback
    by_cases hlt :
        (computeNodeShapeDefault cd env n (isSimpleContinuation env n)).1.length < 3
    · rw [if_pos hlt]
      exact default_env_grows cd env n _ e
    · rw [if_neg hlt]
      exact default_env_grows cd env n _ e

/-!  Exactness of the rational square root on perfect squares. -/

theorem sqrtIter_bracket (n : Nat) :
    ∀ (f lo hi : Nat), lo * lo ≤ n → n < hi * hi → hi ≤ lo + f + 1 →
      sqrtIter n f lo hi * sqrtIter n f lo hi ≤ n ∧
        n < (sqrtIter n f lo hi + 1) * (sqrtIter n f lo hi + 1) := by
  intro f
  induction f with
  | zero =>
    intro lo hi hlo hhi hf
    simp only [sqrtIter]
    refine ⟨hlo, ?_⟩
    calc n < hi * hi := hhi
      _ ≤ (lo + 1) * (lo + 1) := Nat.mul_le_mul hf hf
  | succ f ih =>
    intro lo hi hlo hhi hf
    have hhl : lo < hi := by
      rcases Nat.lt_or_ge lo hi with h | h
      · exact h
      · exact absurd (lt_of_lt_of_le hhi (le_trans (Nat.mul_le_mul h h) hlo))
          (lt_irrefl n)
    simp only [sqrtIter]
    by_cases hmid : (lo + hi) / 2 = lo
    · rw [if_pos hmid]
      refine ⟨hlo, ?_⟩
      have h2 : hi ≤ lo + 1 := by omega
      calc n < hi * hi := hhi
        _ ≤ (lo + 1) * (lo + 1) := Nat.mul_le_mul h2 h2
    · rw [if_neg hmid]
      have hmid_lt : (lo + hi) / 2 < hi := by omega
      have hmid_gt : lo < (lo + hi) / 2 := by omega
      by_cases hsq : (lo + hi) / 2 * ((lo + hi) / 2) ≤ n
      · rw [if_pos hsq]
        exact ih ((lo + hi) / 2) hi hsq hhi (by omega)
      · rw [if_neg hsq]
        exact ih lo ((lo + hi) / 2) hlo (Nat.lt_of_not_le hsq) (by omega)

theorem isqrt_bracket (n : Nat) :
    isqrt n * isqrt n ≤ n ∧ n < (isqrt n + 1) * (isqrt n + 1) := by
  unfold isqrt
  exact sqrtIter_bracket n (n + 1) 0 (n + 1) (by simp) (by nlinarith) (by omega)

theorem isqrt_exact (k : Nat) : isqrt (k * k) = k := by
  obtain ⟨h1, h2⟩ := isqrt_bracket (k * k)
  have hrk : isqrt (k * k) ≤ k := by
    by_contra hcon
    push_neg at hcon
    have h3 : (k + 1) * (k + 1) ≤ isqrt (k * k) * isqrt (k * k) :=
      Nat.mul_le_mul hcon hcon
    nlinarith
  have hkr : k ≤ isqrt (k * k) := by
    by_contra hcon
    push_neg at hcon
    have h4 : isqrt (k * k) + 1 ≤ k := hcon
    exact absurd h2 (not_lt.mpr (Nat.mul_le_mul h4 h4))
  omega

theorem sqrtQ_unique (q r : ℚ) (hr : 0 ≤ r) (hq : r * r = q) : sqrtQ q = r := by
  by_cases h0 : q ≤ 0
  · have hq0 : q = 0 := le_antisymm h0 (hq ▸ mul_self_nonneg r)
    have hr0 : r = 0 := by
      have := hq0 ▸ hq
      exact mul_self_eq_zero.mp this
    simp [sqrtQ, h0, hr0]
  · push_neg at h0
    have hnum : q.num = r.num * r.num := by rw [← hq]; exact Rat.mul_self_num r
    have hden : q.den = r.den * r.den := by rw [← hq]; exact Rat.mul_self_den r
    have hrnum : 0 ≤ r.num := Rat.num_nonneg.mpr hr
    have hcast : (r.num.toNat : ℤ) = r.num := Int.toNat_of_nonneg hrnum
    have hqnum : q.num.toNat = r.num.toNat * r.num.toNat := by
      have hq2 : q.num = ((r.num.toNat * r.num.toNat : ℕ) : ℤ) := by
        push_cast
        rw [hcast]
        exact hnum
      rw [hq2, Int.toNat_natCast]
    unfold sqrtQ
    rw [if_neg (not_le.mpr h0)]
    show (if isqrt q.num.toNat * isqrt q.num.toNat = q.num.toNat ∧
            isqrt q.den * isqrt q.den = q.den
          then ((isqrt q.num.toNat : ℕ) : ℚ) / ((isqrt q.den : ℕ) : ℚ) else 0) = r
    rw [hqnum, hden, isqrt_exact, isqrt_exact, if_pos ⟨rfl, rfl⟩]
    have hcastQ : ((r.num.toNat : ℕ) : ℚ) = ((r.num : ℤ) : ℚ) := by
      conv_rhs => rw [← hcast]
      norm_cast
    rw [hcastQ]
    exact Rat.num_div_den r

/-- The 2-D distance of two points at exactly known squared distance. -/
theorem dist2D_of_sq (p q : Position) (l : ℚ) (hl : 0 ≤ l)
    (h : l ^ 2 = distSq2D p q) : dist2D p q = l := by
  unfold dist2D
  exact sqrtQ_unique (distSq2D p q) l hl (by rw [← h]; ring)

/-- `move2side` on a two-point polyline of known length is `shiftTwo`. -/
theorem move2side_two (P0 p1 : Position) (l d : ℚ)
    (hlen : dist2D P0 p1 = l) :
    move2sidePV [P0, p1] d = shiftTwo P0 p1 l d := by
  simp only [move2sidePV, move2sidePV.moveAux, lineMove2side, lineLength2D,
    shiftTwo]
  rw [hlen]

/-- An unshifted two-point polyline is `shiftTwo` with offset zero. -/
theorem two_eq_shiftTwo_zero (P0 p1 : Position) (l : ℚ) :
    [P0, p1] = shiftTwo P0 p1 l 0 := by
  obtain ⟨x0, y0, z0⟩ := P0
  obtain ⟨x1, y1, z1⟩ := p1
  simp [shiftTwo]

/-- Position constructor congruence, componentwise. -/
theorem pos_mk_eq (a b c d e f : ℚ) (h1 : a = d) (h2 : b = e) (h3 : c = f) :
    (⟨a, b, c⟩ : Position) = ⟨d, e, f⟩ := by rw [h1, h2, h3]

/-- Line constructor congruence, componentwise. -/
theorem line_mk_eq (a b c d e f a2 b2 c2 d2 e2 f2 : ℚ)
    (h1 : a = a2) (h2 : b = b2) (h3 : c = c2)
    (h4 : d = d2) (h5 : e = e2) (h6 : f = f2) :
    (⟨⟨a, b, c⟩, ⟨d, e, f⟩⟩ : Line) = ⟨⟨a2, b2, c2⟩, ⟨d2, e2, f2⟩⟩ := by
  rw [h1, h2, h3, h4, h5, h6]

set_option maxHeartbeats 3200000 in
/-- The perpendicular cut through the node crosses both shifted boundary
lines of a single straight edge in exactly the two shifted base points. -/
theorem smallStepPoints_shiftTwo (P0 p1 : Position) (l d1 d2 : ℚ)
    (hl : 0 < l) (hll : l ^ 2 = distSq2D P0 p1)
    (hd1 : |d1| ≤ 500) (hd2 : |d2| ≤ 500)
    (hsep : (1 / 10 : ℚ) ^ 2 < (d1 - d2) ^ 2) :
    smallStepPoints P0 (shiftTwo P0 p1 l d1) (shiftTwo P0 p1 l d2) [] =
      [⟨P0.x + d1 * (p1.y - P0.y) / l, P0.y + d1 * (P0.x - p1.x) / l, P0.z⟩,
       ⟨P0.x + d2 * (p1.y - P0.y) / l, P0.y + d2 * (P0.x - p1.x) / l, P0.z⟩] := by
  obtain ⟨x0, y0, z0⟩ := P0
  obtain ⟨x1, y1, z1⟩ := p1
  simp only [distSq2D] at hll
  have hlne : l ≠ 0 := ne_of_gt hl
  have hpos : (0 : ℚ) < l + 1000 := by linarith
  have hne2 : l + 1000 ≠ 0 := hpos.ne'
  have hden : -(l + 1000) ^ 2 ≠ 0 := neg_ne_zero.mpr (pow_ne_zero 2 hne2)
  have hd1' := abs_le.mp hd1
  have hd2' := abs_le.mp hd2
  have key : (x1 - x0) ^ 2 + (y1 - y0) ^ 2 = l ^ 2 := by linear_combination -hll
  have eL1 : lineAt (shiftTwo (⟨x0, y0, z0⟩ : Position) (⟨x1, y1, z1⟩ : Position) l d1) 0 = (⟨(⟨x0 + d1 * (y1 - y0) / l, y0 + d1 * (x0 - x1) / l, z0⟩ : Position), (⟨x1 + d1 * (y1 - y0) / l, y1 + d1 * (x0 - x1) / l, z1⟩ : Position)⟩ : Line) := rfl
  have eL2 : lineAt (shiftTwo (⟨x0, y0, z0⟩ : Position) (⟨x1, y1, z1⟩ : Position) l d2) 0 = (⟨(⟨x0 + d2 * (y1 - y0) / l, y0 + d2 * (x0 - x1) / l, z0⟩ : Position), (⟨x1 + d2 * (y1 - y0) / l, y1 + d2 * (x0 - x1) / l, z1⟩ : Position)⟩ : Line) := rfl
  have eRot : lineRotate90AtP1 (⟨(⟨x0 + d1 * (y1 - y0) / l, y0 + d1 * (x0 - x1) / l, z0⟩ : Position), (⟨x1 + d1 * (y1 - y0) / l, y1 + d1 * (x0 - x1) / l, z1⟩ : Position)⟩ : Line) = (⟨(⟨x0 + d1 * (y1 - y0) / l, y0 + d1 * (x0 - x1) / l, z0⟩ : Position), (⟨x0 + d1 * (y1 - y0) / l - (y1 - y0), y0 + d1 * (x0 - x1) / l + (x1 - x0), z1⟩ : Position)⟩ : Line) := by
    simp only [lineRotate90AtP1]
    exact line_mk_eq _ _ _ _ _ _ _ _ _ _ _ _ (by ring) (by ring) (by ring) (by ring) (by ring) (by ring)
  have eSub : pSub (⟨x0, y0, z0⟩ : Position) (⟨x0 + d1 * (y1 - y0) / l, y0 + d1 * (x0 - x1) / l, z0⟩ : Position) = (⟨-(d1 * (y1 - y0) / l), -(d1 * (x0 - x1) / l), 0⟩ : Position) := by
    simp only [pSub]
    exact pos_mk_eq _ _ _ _ _ _ (by ring) (by ring) (by ring)
  have eAdd : lineAdd (⟨(⟨x0 + d1 * (y1 - y0) / l, y0 + d1 * (x0 - x1) / l, z0⟩ : Position), (⟨x0 + d1 * (y1 - y0) / l - (y1 - y0), y0 + d1 * (x0 - x1) / l + (x1 - x0), z1⟩ : Position)⟩ : Line) (⟨-(d1 * (y1 - y0) / l), -(d1 * (x0 - x1) / l), 0⟩ : Position) = (⟨(⟨x0, y0, z0⟩ : Position), (⟨x0 - (y1 - y0), y0 + (x1 - x0), z1⟩ : Position)⟩ : Line) := by
    simp only [lineAdd, pAdd]
    exact line_mk_eq _ _ _ _ _ _ _ _ _ _ _ _ (by ring) (by ring) (by ring) (by ring) (by ring) (by ring)
  have hlenCR : dist2D (⟨x0, y0, z0⟩ : Position) (⟨x0 - (y1 - y0), y0 + (x1 - x0), z1⟩ : Position) = l :=
    dist2D_of_sq _ _ l hl.le (by simp only [distSq2D]; linear_combination hll)
  have hlenAB1 : dist2D (⟨x0 + d1 * (y1 - y0) / l, y0 + d1 * (x0 - x1) / l, z0⟩ : Position) (⟨x1 + d1 * (y1 - y0) / l, y1 + d1 * (x0 - x1) / l, z1⟩ : Position) = l :=
    dist2D_of_sq _ _ l hl.le (by simp only [distSq2D]; linear_combination hll)
  have hlenAB2 : dist2D (⟨x0 + d2 * (y1 - y0) / l, y0 + d2 * (x0 - x1) / l, z0⟩ : Position) (⟨x1 + d2 * (y1 - y0) / l, y1 + d2 * (x0 - x1) / l, z1⟩ : Position) = l :=
    dist2D_of_sq _ _ l hl.le (by simp only [distSq2D]; linear_combination hll)
  have eExtCR : lineExtrapolate2D (⟨(⟨x0, y0, z0⟩ : Position), (⟨x0 - (y1 - y0), y0 + (x1 - x0), z1⟩ : Position)⟩ : Line) 500 = (⟨(⟨x0 + 500 * (y1 - y0) / l, y0 - 500 * (x1 - x0) / l, z0⟩ : Position), (⟨x0 - (y1 - y0) - 500 * (y1 - y0) / l, y0 + (x1 - x0) + 500 * (x1 - x0) / l, z1⟩ : Position)⟩ : Line) := by
    simp only [lineExtrapolate2D, lineUnit2D, lineLength2D]
    rw [hlenCR]
    exact line_mk_eq _ _ _ _ _ _ _ _ _ _ _ _ (by ring) (by ring) (by ring) (by ring) (by ring) (by ring)
  have eExtE1 : lineExtrapolate2D (⟨(⟨x0 + d1 * (y1 - y0) / l, y0 + d1 * (x0 - x1) / l, z0⟩ : Position), (⟨x1 + d1 * (y1 - y0) / l, y1 + d1 * (x0 - x1) / l, z1⟩ : Position)⟩ : Line) 500 = (⟨(⟨x0 + d1 * (y1 - y0) / l - 500 * (x1 - x0) / l, y0 + d1 * (x0 - x1) / l - 500 * (y1 - y0) / l, z0⟩ : Position), (⟨x1 + d1 * (y1 - y0) / l + 500 * (x1 - x0) / l, y1 + d1 * (x0 - x1) / l + 500 * (y1 - y0) / l, z1⟩ : Position)⟩ : Line) := by
    simp only [lineExtrapolate2D, lineUnit2D, lineLength2D]
    rw [hlenAB1]
    exact line_mk_eq _ _ _ _ _ _ _ _ _ _ _ _ (by ring) (by ring) (by ring) (by ring) (by ring) (by ring)
  have eExtE2 : lineExtrapolate2D (⟨(⟨x0 + d2 * (y1 - y0) / l, y0 + d2 * (x0 - x1) / l, z0⟩ : Position), (⟨x1 + d2 * (y1 - y0) / l, y1 + d2 * (x0 - x1) / l, z1⟩ : Position)⟩ : Line) 500 = (⟨(⟨x0 + d2 * (y1 - y0) / l - 500 * (x1 - x0) / l, y0 + d2 * (x0 - x1) / l - 500 * (y1 - y0) / l, z0⟩ : Position), (⟨x1 + d2 * (y1 - y0) / l + 500 * (x1 - x0) / l, y1 + d2 * (x0 - x1) / l + 500 * (y1 - y0) / l, z1⟩ : Position)⟩ : Line) := by
    simp only [lineExtrapolate2D, lineUnit2D, lineLength2D]
    rw [hlenAB2]
    exact line_mk_eq _ _ _ _ _ _ _ _ _ _ _ _ (by ring) (by ring) (by ring) (by ring) (by ring) (by ring)
  have hq1 : segParams (⟨x0 + 500 * (y1 - y0) / l, y0 - 500 * (x1 - x0) / l, z0⟩ : Position) (⟨x0 - (y1 - y0) - 500 * (y1 - y0) / l, y0 + (x1 - x0) + 500 * (x1 - x0) / l, z1⟩ : Position) (⟨x0 + d1 * (y1 - y0) / l - 500 * (x1 - x0) / l, y0 + d1 * (x0 - x1) / l - 500 * (y1 - y0) / l, z0⟩ : Position) (⟨x1 + d1 * (y1 - y0) / l + 500 * (x1 - x0) / l, y1 + d1 * (x0 - x1) / l + 500 * (y1 - y0) / l, z1⟩ : Position) =
      (-(l + 1000) ^ 2, (l + 1000) * (d1 - 500), -(500 * (l + 1000))) := by
    simp only [segParams]
    refine Prod.ext ?_ (Prod.ext ?_ ?_)
    · dsimp only
      field_simp
      linear_combination (-((l + 1000) ^ 2)) * key
    · dsimp only
      field_simp
      linear_combination ((d1 - 500) * (l + 1000)) * key
    · dsimp only
      field_simp
      linear_combination (-(500 * (l + 1000))) * key
  have hq2 : segParams (⟨x0 + 500 * (y1 - y0) / l, y0 - 500 * (x1 - x0) / l, z0⟩ : Position) (⟨x0 - (y1 - y0) - 500 * (y1 - y0) / l, y0 + (x1 - x0) + 500 * (x1 - x0) / l, z1⟩ : Position) (⟨x0 + d2 * (y1 - y0) / l - 500 * (x1 - x0) / l, y0 + d2 * (x0 - x1) / l - 500 * (y1 - y0) / l, z0⟩ : Position) (⟨x1 + d2 * (y1 - y0) / l + 500 * (x1 - x0) / l, y1 + d2 * (x0 - x1) / l + 500 * (y1 - y0) / l, z1⟩ : Position) =
      (-(l + 1000) ^ 2, (l + 1000) * (d2 - 500), -(500 * (l + 1000))) := by
    simp only [segParams]
    refine Prod.ext ?_ (Prod.ext ?_ ?_)
    · dsimp only
      field_simp
      linear_combination (-((l + 1000) ^ 2)) * key
    · dsimp only
      field_simp
      linear_combination ((d2 - 500) * (l + 1000)) * key
    · dsimp only
      field_simp
      linear_combination (-(500 * (l + 1000))) * key
  have hint1 : lineIntersectsLine (⟨(⟨x0 + 500 * (y1 - y0) / l, y0 - 500 * (x1 - x0) / l, z0⟩ : Position), (⟨x0 - (y1 - y0) - 500 * (y1 - y0) / l, y0 + (x1 - x0) + 500 * (x1 - x0) / l, z1⟩ : Position)⟩ : Line) (⟨(⟨x0 + d1 * (y1 - y0) / l - 500 * (x1 - x0) / l, y0 + d1 * (x0 - x1) / l - 500 * (y1 - y0) / l, z0⟩ : Position), (⟨x1 + d1 * (y1 - y0) / l + 500 * (x1 - x0) / l, y1 + d1 * (x0 - x1) / l + 500 * (y1 - y0) / l, z1⟩ : Position)⟩ : Line) = true := by
    simp only [lineIntersectsLine, segIntersects]
    rw [hq1]
    dsimp only
    rw [if_neg hden]
    have ht : (l + 1000) * (d1 - 500) / -(l + 1000) ^ 2 = (500 - d1) / (l + 1000) := by
      rw [div_eq_div_iff hden hpos.ne']
      ring
    have hs : -(500 * (l + 1000)) / -(l + 1000) ^ 2 = 500 / (l + 1000) := by
      rw [div_eq_div_iff hden hpos.ne']
      ring
    rw [ht, hs]
    apply decide_eq_true
    refine ⟨div_nonneg (by linarith) hpos.le, (div_le_one hpos).mpr (by linarith),
      div_nonneg (by norm_num) hpos.le, (div_le_one hpos).mpr (by linarith)⟩
  have hint2 : lineIntersectsLine (⟨(⟨x0 + 500 * (y1 - y0) / l, y0 - 500 * (x1 - x0) / l, z0⟩ : Position), (⟨x0 - (y1 - y0) - 500 * (y1 - y0) / l, y0 + (x1 - x0) + 500 * (x1 - x0) / l, z1⟩ : Position)⟩ : Line) (⟨(⟨x0 + d2 * (y1 - y0) / l - 500 * (x1 - x0) / l, y0 + d2 * (x0 - x1) / l - 500 * (y1 - y0) / l, z0⟩ : Position), (⟨x1 + d2 * (y1 - y0) / l + 500 * (x1 - x0) / l, y1 + d2 * (x0 - x1) / l + 500 * (y1 - y0) / l, z1⟩ : Position)⟩ : Line) = true := by
    simp only [lineIntersectsLine, segIntersects]
    rw [hq2]
    dsimp only
    rw [if_neg hden]
    have ht : (l + 1000) * (d2 - 500) / -(l + 1000) ^ 2 = (500 - d2) / (l + 1000) := by
      rw [div_eq_div_iff hden hpos.ne']
      ring
    have hs : -(500 * (l + 1000)) / -(l + 1000) ^ 2 = 500 / (l + 1000) := by
      rw [div_eq_div_iff hden hpos.ne']
      ring
    rw [ht, hs]
    apply decide_eq_true
    refine ⟨div_nonneg (by linarith) hpos.le, (div_le_one hpos).mpr (by linarith),
      div_nonneg (by norm_num) hpos.le, (div_le_one hpos).mpr (by linarith)⟩
  have hx1 : (lineIntersectsAt (⟨(⟨x0 + 500 * (y1 - y0) / l, y0 - 500 * (x1 - x0) / l, z0⟩ : Position), (⟨x0 - (y1 - y0) - 500 * (y1 - y0) / l, y0 + (x1 - x0) + 500 * (x1 - x0) / l, z1⟩ : Position)⟩ : Line) (⟨(⟨x0 + d1 * (y1 - y0) / l - 500 * (x1 - x0) / l, y0 + d1 * (x0 - x1) / l - 500 * (y1 - y0) / l, z0⟩ : Position), (⟨x1 + d1 * (y1 - y0) / l + 500 * (x1 - x0) / l, y1 + d1 * (x0 - x1) / l + 500 * (y1 - y0) / l, z1⟩ : Position)⟩ : Line)).x =
      x0 + d1 * (y1 - y0) / l := by
    simp only [lineIntersectsAt, segIntersectAt]
    rw [hq1]
    dsimp only
    field_simp
    ring
  have hy1 : (lineIntersectsAt (⟨(⟨x0 + 500 * (y1 - y0) / l, y0 - 500 * (x1 - x0) / l, z0⟩ : Position), (⟨x0 - (y1 - y0) - 500 * (y1 - y0) / l, y0 + (x1 - x0) + 500 * (x1 - x0) / l, z1⟩ : Position)⟩ : Line) (⟨(⟨x0 + d1 * (y1 - y0) / l - 500 * (x1 - x0) / l, y0 + d1 * (x0 - x1) / l - 500 * (y1 - y0) / l, z0⟩ : Position), (⟨x1 + d1 * (y1 - y0) / l + 500 * (x1 - x0) / l, y1 + d1 * (x0 - x1) / l + 500 * (y1 - y0) / l, z1⟩ : Position)⟩ : Line)).y =
      y0 + d1 * (x0 - x1) / l := by
    simp only [lineIntersectsAt, segIntersectAt]
    rw [hq1]
    dsimp only
    field_simp
    ring
  have hx2 : (lineIntersectsAt (⟨(⟨x0 + 500 * (y1 - y0) / l, y0 - 500 * (x1 - x0) / l, z0⟩ : Position), (⟨x0 - (y1 - y0) - 500 * (y1 - y0) / l, y0 + (x1 - x0) + 500 * (x1 - x0) / l, z1⟩ : Position)⟩ : Line) (⟨(⟨x0 + d2 * (y1 - y0) / l - 500 * (x1 - x0) / l, y0 + d2 * (x0 - x1) / l - 500 * (y1 - y0) / l, z0⟩ : Position), (⟨x1 + d2 * (y1 - y0) / l + 500 * (x1 - x0) / l, y1 + d2 * (x0 - x1) / l + 500 * (y1 - y0) / l, z1⟩ : Position)⟩ : Line)).x =
      x0 + d2 * (y1 - y0) / l := by
    simp only [lineIntersectsAt, segIntersectAt]
    rw [hq2]
    dsimp only
    field_simp
    ring
  have hy2 : (lineIntersectsAt (⟨(⟨x0 + 500 * (y1 - y0) / l, y0 - 500 * (x1 - x0) / l, z0⟩ : Position), (⟨x0 - (y1 - y0) - 500 * (y1 - y0) / l, y0 + (x1 - x0) + 500 * (x1 - x0) / l, z1⟩ : Position)⟩ : Line) (⟨(⟨x0 + d2 * (y1 - y0) / l - 500 * (x1 - x0) / l, y0 + d2 * (x0 - x1) / l - 500 * (y1 - y0) / l, z0⟩ : Position), (⟨x1 + d2 * (y1 - y0) / l + 500 * (x1 - x0) / l, y1 + d2 * (x0 - x1) / l + 500 * (y1 - y0) / l, z1⟩ : Position)⟩ : Line)).y =
      y0 + d2 * (x0 - x1) / l := by
    simp only [lineIntersectsAt, segIntersectAt]
    rw [hq2]
    dsimp only
    field_simp
    ring
  have hfar : almostSame (⟨x0 + d1 * (y1 - y0) / l, y0 + d1 * (x0 - x1) / l, z0⟩ : Position)
      (⟨x0 + d2 * (y1 - y0) / l, y0 + d2 * (x0 - x1) / l, z0⟩ : Position) = false := by
    apply decide_eq_false
    intro hcon
    have hdq : distSq3D (⟨x0 + d1 * (y1 - y0) / l, y0 + d1 * (x0 - x1) / l, z0⟩ : Position)
        (⟨x0 + d2 * (y1 - y0) / l, y0 + d2 * (x0 - x1) / l, z0⟩ : Position) = (d1 - d2) ^ 2 := by
      simp only [distSq3D]
      field_simp
      linear_combination ((d1 - d2) ^ 2) * key
    rw [hdq] at hcon
    have heps : positionEps ^ 2 = (1 / 10 : ℚ) ^ 2 := by norm_num [positionEps]
    rw [heps] at hcon
    linarith
  simp only [smallStepPoints]
  rw [eL1, eL2, eRot]
  dsimp only
  rw [eSub, eAdd, eExtCR, eExtE1, eExtE2]
  rw [hx1, hy1, hx2, hy2]
  rw [if_pos hint2, if_pos hint1]
  simp only [pushBackND, backP, getP, List.length_singleton, Nat.sub_zero,
    Nat.sub_self, List.getD_cons_zero]
  rw [hfar]
  rfl

set_option maxRecDepth 1000000 in
set_option maxHeartbeats 3200000 in
/-- C3: for every node with exactly one incident edge (whose oriented
geometry is a single nondegenerate segment of exactly representable length
starting at the node, with a physical width above the duplicate-merge
epsilon and within the 500-unit cut horizon), `compute` returns exactly the
result of `computeNodeShapeSmall` with the edge store untouched (the
Default path is never invoked), and that polygon has exactly two vertices,
one crossing per boundary side of the single edge. -/
theorem C3_single_edge (cd : Int) (env : Env) (n : NodeCtx) (e : EdgeId)
    (p1 : Position) (l : ℚ)
    (hedges : n.allEdges = [e])
    (hgeom : orientedFromNode env n e = [n.node.pos, p1])
    (hl : 0 < l) (hll : l ^ 2 = distSq2D n.node.pos p1)
    (hw1 : 1 / 10 < totalWidth (env e)) (hw2 : totalWidth (env e) ≤ 500) :
    compute cd env n = (computeNodeShapeSmall env n, env) ∧
      (computeNodeShapeSmall env n).length = 2 := by
  have hsd : singleDirectionB env n = true := by
    simp [singleDirectionB, hedges]
  constructor
  · unfold compute
    rw [if_pos hsd]
  · have hlen : dist2D n.node.pos p1 = l := dist2D_of_sq _ _ l hl.le hll
    have hwpos : (0 : ℚ) < totalWidth (env e) := lt_trans (by norm_num) hw1
    unfold computeNodeShapeSmall
    rw [hedges]
    simp only [List.foldl]
    by_cases hsp : (env e).spreadCenter = true
    · have hccw : getCCWBoundaryLine env n e =
          shiftTwo n.node.pos p1 l (-(totalWidth (env e)) / 2) := by
        unfold getCCWBoundaryLine
        rw [if_pos hsp, hgeom]
        exact move2side_two _ _ _ _ hlen
      have hcw : getCWBoundaryLine env n e =
          shiftTwo n.node.pos p1 l (totalWidth (env e) / 2) := by
        unfold getCWBoundaryLine
        rw [if_pos hsp, hgeom]
        exact move2side_two _ _ _ _ hlen
      rw [hccw, hcw,
        smallStepPoints_shiftTwo n.node.pos p1 l _ _ hl hll
          (by rw [abs_le]; constructor <;> linarith)
          (by rw [abs_le]; constructor <;> linarith)
          (by nlinarith)]
      rfl
    · have hccw : getCCWBoundaryLine env n e = shiftTwo n.node.pos p1 l 0 := by
        unfold getCCWBoundaryLine
        rw [if_neg hsp, hgeom]
        exact two_eq_shiftTwo_zero _ _ _
      have hcw : getCWBoundaryLine env n e =
          shiftTwo n.node.pos p1 l (totalWidth (env e)) := by
        unfold getCWBoundaryLine
        rw [if_neg hsp, hgeom]
        exact move2side_two _ _ _ _ hlen
      rw [hccw, hcw,
        smallStepPoints_shiftTwo n.node.pos p1 l _ _ hl hll
          (by norm_num)
          (by rw [abs_le]; constructor <;> linarith)
          (by nlinarith)]
      rfl

set_option maxRecDepth 1000000 in
set_option maxHeartbeats 3200000 in
/-- Witness for C3 at the dead-end node with one incident edge of length 50. -/
theorem C3_witness :
    nodeC3.allEdges = [50] ∧
    orientedFromNode envC3 nodeC3 50 = [nodeC3.node.pos, ⟨40, 30, 0⟩] ∧
    (0 : ℚ) < 50 ∧ (50 : ℚ) ^ 2 = distSq2D nodeC3.node.pos ⟨40, 30, 0⟩ ∧
    1 / 10 < totalWidth (envC3 50) ∧ totalWidth (envC3 50) ≤ 500 ∧
    compute 0 envC3 nodeC3 = (computeNodeShapeSmall envC3 nodeC3, envC3) ∧
    (computeNodeShapeSmall envC3 nodeC3).length = 2 :=
  ⟨by decide, by decide, by norm_num, by decide, by decide, by decide,
    (C3_single_edge 0 envC3 nodeC3 50 ⟨40, 30, 0⟩ 50 (by decide) (by decide)
      (by norm_num) (by decide) (by decide) (by decide)).1,
    (C3_single_edge 0 envC3 nodeC3 50 ⟨40, 30, 0⟩ 50 (by decide) (by decide)
      (by norm_num) (by decide) (by decide) (by decide)).2⟩

/-- C5 counterexample: at the wide-gap node, the first trim pass reads the
two neighbor distances while both are still unresolved (they are treated as
zero), yet `computeNodeShapeDefault` continues and returns a full six-point
polygon instead of the empty one. -/
theorem C5_counterexample :
    isSimpleContinuation envC5 nodeC5 = false ∧
    defaultPass1Missing envC5 nodeC5 false = true ∧
    (computeNodeShapeDefault 0 envC5 nodeC5 false).1 ≠ [] ∧
    (computeNodeShapeDefault 0 envC5 nodeC5 false).1.length = 6 :=
  ⟨by decide, by decide, by decide, by decide⟩

theorem pass2Step_aborts_on_missing (n : NodeCtx) (newAll : List EdgeId)
    (st : DefState) (idx : Nat)
    (h1 : st.aborted = false)
    (h2 : mcontains st.distances (newAll.getD idx 0) = false)
    (h3 : pass2PrimaryMissing n newAll st idx = true) :
    (pass2Step n newAll st idx).aborted = true := by
  simp only [pass2PrimaryMissing] at h3
  simp only [pass2Step]
  rw [if_neg (by intro hcon; rw [hcon] at h1; simp at h1),
    if_neg (by intro hcon; rw [hcon] at h2; simp at h2)]
  by_cases hin : hasIncoming st.env n (newAll.getD idx 0) = true
  · rw [if_pos hin] at h3 ⊢
    by_cases houts :
        hasOutgoing st.env n
            (newAll.getD (initNeighbors st.geomsCW st.geomsCCW newAll idx false).2.1 0) = true ∧
          hasOutgoing st.env n
            (newAll.getD (initNeighbors st.geomsCW st.geomsCCW newAll idx false).1 0) = true
    · rw [if_pos houts] at h3 ⊢
      rw [if_neg (by intro hcon; rw [hcon] at h3; simp at h3)]
    · rw [if_neg houts] at h3 ⊢
      rw [if_neg (by intro hcon; rw [hcon] at h3; simp at h3)]
  · rw [if_neg hin] at h3 ⊢
    by_cases hins :
        hasIncoming st.env n
            (newAll.getD (initNeighbors st.geomsCW st.geomsCCW newAll idx false).2.1 0) = true ∧
          hasIncoming st.env n
            (newAll.getD (initNeighbors st.geomsCW st.geomsCCW newAll idx false).1 0) = true
    · rw [if_pos hins] at h3 ⊢
      rw [if_neg (by intro hcon; rw [hcon] at h3; simp at h3)]
    · rw [if_neg hins] at h3 ⊢
      rw [if_neg (by intro hcon; rw [hcon] at h3; simp at h3)]

/-- C5 amended: only the second pass aborts on unresolved neighbors — a
missing entry at its first guarded lookup makes the step abort the whole
Default computation (which then returns the empty polygon) — while after the
first pass every direction already carries a distance (each first-pass
branch assigns one), so in a full run the second pass never fires; the
first-pass wide-gap read of an unresolved neighbor (shown by the
counterexample input) does not abort. -/
theorem C5_amended :
    (∀ (n : NodeCtx) (newAll : List EdgeId) (st : DefState) (idx : Nat),
      st.aborted = false →
      mcontains st.distances (newAll.getD idx 0) = false →
      pass2PrimaryMissing n newAll st idx = true →
      (pass2Step n newAll st idx).aborted = true) ∧
    (∀ (env : Env) (n : NodeCtx) (sc : Bool) (idx : Nat),
      idx < (defaultNewAll env n).length →
      mcontains (pass1Result env n sc).distances
        ((defaultNewAll env n).getD idx 0) = true) := by
  constructor
  · exact pass2Step_aborts_on_missing
  · intro env n sc idx hidx
    unfold pass1Result
    exact pass1_fold_contains (radiusValue n) sc n (defaultNewAll env n)
      (List.range (defaultNewAll env n).length) (defaultStart env n) idx
      (List.mem_range.mpr hidx)

/-- Witness for the amended C5: a second-pass step whose guarded neighbor
lookup is missing, and which therefore aborts. -/
theorem C5_amended_witness :
    stP2.aborted = false ∧
    mcontains stP2.distances ([60, 61].getD 0 0) = false ∧
    pass2PrimaryMissing nodeP2 [60, 61] stP2 0 = true ∧
    (pass2Step nodeP2 [60, 61] stP2 0).aborted = true :=
  ⟨by decide, by decide, by decide,
    C5_amended.1 nodeP2 [60, 61] stP2 0 (by decide) (by decide) (by decide)⟩

end NB
